import Mathlib

/-!
Verification development for the MonkeyTrenches battle-simulation core
(`src/game/engine.ts`).

The engine is shallowly embedded over exact rationals (`ℚ`): every JS
`number` becomes a `ℚ` (counters become `ℤ`), `Math.floor`/`Math.ceil`
become `Int.floor`/`Int.ceil`, and the fallible JS `Map` becomes an
insertion-ordered association list.  `Math.hypot` is embedded as
`hypotQ`, which is exact whenever the sum of squares is the square of a
rational (in particular on every axis-aligned distance used in the
concrete evaluations below); no theorem below depends on the value of
`hypotQ` beyond its definition.  All uses of `Math.random()` are
injected as explicit oracle parameters (one raw draw per call site), so
the tick function is a pure function of its inputs, quantified over the
random source.
-/

set_option maxRecDepth 8000

/-- Fuel-bounded Newton iteration for the integer square root
(structural recursion so that concrete evaluations reduce). -/
def natSqrtIter (n : ℕ) : ℕ → ℕ → ℕ
  | 0, guess => guess
  | fuel + 1, guess =>
    let next := (guess + n / guess) / 2
    if next < guess then natSqrtIter n fuel next else guess

/-- Integer square root (floor); 128 Newton steps are enough for every
natural number below 2^128, far beyond any quantity in this model. -/
def natSqrt (n : ℕ) : ℕ := if n ≤ 1 then n else natSqrtIter n 128 (n / 2 + 1)

/-- Exact square root on the nonnegative rationals whose numerator and
denominator are perfect squares; used only through `hypotQ`. -/
def ratSqrt (q : ℚ) : ℚ := (natSqrt q.num.toNat : ℚ) / (natSqrt q.den : ℚ)

/-- Embedding of `Math.hypot(x, y)`. -/
def hypotQ (x y : ℚ) : ℚ := ratSqrt (x * x + y * y)

/-- Embedding of the engine's `clamp` helper (engine.ts lines 232-236). -/
def clampQ (value lo hi : ℚ) : ℚ := if value < lo then lo else if hi < value then hi else value

/-- JS truncation toward zero (used by the JS `%` operator on numbers). -/
def jsTrunc (q : ℚ) : ℤ := if q < 0 then -⌊-q⌋ else ⌊q⌋

/-- JS remainder `x % y` on numbers: `x - y * trunc(x / y)`. -/
def jsRemQ (x y : ℚ) : ℚ := x - y * (jsTrunc (x / y) : ℚ)

-- Shared engine constants (engine.ts lines 4-24).
def BASE_MONKEY_SIZE : ℚ := 48
def BASE_COLLISION_RADIUS : ℚ := 2
def BASE_SPEED : ℚ := 40
def BASE_HP : ℚ := 100
def BASE_ATTACK_DAMAGE : ℚ := 12
def ATTACK_RANGE : ℚ := 22
def ATTACK_COOLDOWN_MS : ℚ := 700
def WANDER_INTERVAL_MS : ℚ := 1250
def MAX_BANANAS : ℕ := 5
def BANANA_HEAL_PERCENT : ℚ := 1 / 10
def BANANA_SIZE : ℚ := 16
def ANIMATION_SPEED : ℚ := 200

/-- The three monkey tiers (`MonkeyType` in types.ts). -/
inductive MonkeyType where
  | small
  | medium
  | big
deriving DecidableEq

/-- Per-tier cost table `MONKEY_COSTS` (engine.ts lines 27-31). -/
def monkeyCost : MonkeyType → ℚ
  | MonkeyType.small => 1 / 10
  | MonkeyType.medium => 1
  | MonkeyType.big => 10

/-- The per-tier stats record (engine.ts lines 34-41). -/
structure MonkeyStats where
  size : ℚ
  collisionRadius : ℚ
  speed : ℚ
  maxHp : ℚ
  damage : ℚ
  healthBars : ℤ
deriving DecidableEq

/-- Embedding of `getMonkeyStats` (engine.ts lines 43-73). -/
def getMonkeyStats : MonkeyType → MonkeyStats
  | MonkeyType.small =>
    { size := BASE_MONKEY_SIZE
      collisionRadius := BASE_COLLISION_RADIUS
      speed := BASE_SPEED
      maxHp := BASE_HP
      damage := BASE_ATTACK_DAMAGE
      healthBars := 1 }
  | MonkeyType.medium =>
    { size := BASE_MONKEY_SIZE * (13 / 10)
      collisionRadius := BASE_COLLISION_RADIUS * (13 / 10)
      speed := BASE_SPEED * (1 / 2)
      maxHp := BASE_HP * 8
      damage := BASE_ATTACK_DAMAGE * 2
      healthBars := 2 }
  | MonkeyType.big =>
    { size := BASE_MONKEY_SIZE * (18 / 10)
      collisionRadius := BASE_COLLISION_RADIUS * (18 / 10)
      speed := BASE_SPEED * (33 / 100)
      maxHp := BASE_HP * 50
      damage := BASE_ATTACK_DAMAGE * 20
      healthBars := 3 }

/-- 2D vector (types.ts). -/
structure Vector2 where
  x : ℚ
  y : ℚ
deriving DecidableEq

/-- An agent (types.ts `Monkey`).  The optional-in-transit
`collisionRadius` is stored as a plain field: `stepWorld` re-fills it
with `?? BASE_COLLISION_RADIUS`, which never fires on a typed value. -/
structure Monkey where
  id : String
  teamId : String
  monkeyType : MonkeyType
  position : Vector2
  velocity : Vector2
  hp : ℚ
  maxHp : ℚ
  lastAttackAtMs : ℚ
  targetId : Option String
  wanderChangeAtMs : ℚ
  isUnderAttack : Bool
  killedBy : Option String
  animationFrame : ℤ
  lastAnimationUpdate : ℚ
  isFighting : Bool
  facingLeft : Bool
  collisionRadius : ℚ
deriving DecidableEq

/-- A resource item (types.ts `Banana`). -/
structure Banana where
  id : String
  position : Vector2
  healAmount : ℚ
deriving DecidableEq

/-- A team's funding pool (types.ts `TeamPool`); the JS `Map` of wallet
contributions becomes an insertion-ordered association list. -/
structure TeamPool where
  teamId : String
  totalSol : ℚ
  fundingWallets : List (String × ℚ)
deriving DecidableEq

/-- Per-team counters (types.ts `TeamStats`). -/
structure TeamStats where
  teamId : String
  color : String
  totalSol : ℚ
  spawned : ℤ
  alive : ℤ
  dead : ℤ
  kills : ℤ
  reserves : ℤ
  monkeyType : MonkeyType
  fundingWallets : List (String × ℚ)
deriving DecidableEq

/-- Arena configuration (types.ts `GameConfig`); `trees` and
`decorations` are render-only and never read by the engine, so they are
omitted from the embedding. -/
structure GameConfig where
  width : ℚ
  height : ℚ
  maxMonkeys : ℤ
deriving DecidableEq

/-- The world snapshot (types.ts `World`), with the two JS `Map`s as
insertion-ordered association lists. -/
structure World where
  monkeys : List Monkey
  teamStats : List (String × TeamStats)
  teamPools : List (String × TeamPool)
  bananas : List Banana
deriving DecidableEq

/-- A normalized funding transaction (types.ts `TransactionEvent`). -/
structure TransactionEvent where
  signature : String
  wallet : String
  sol : ℚ
  isSell : Bool
  teamId : String
  ts : ℚ
deriving DecidableEq

-- Association-list operations, mirroring JS `Map` semantics
-- (insertion order preserved, `set` on a present key updates in place).

/-- `Map.get`. -/
def alGet {α : Type} (l : List (String × α)) (k : String) : Option α :=
  (l.find? (fun p => p.1 = k)).map (fun p => p.2)

/-- `Map.set`: replace the first entry with this key, else append. -/
def alSet {α : Type} : List (String × α) → String → α → List (String × α)
  | [], k, v => [(k, v)]
  | (k', v') :: t, k, v => if k' = k then (k, v) :: t else (k', v') :: alSet t k v

/-- In-place mutation of an entry's value when the key is present
(JS code pattern: `const s = map.get(k); if (s) mutate(s)`). -/
def alUpdate {α : Type} : List (String × α) → String → (α → α) → List (String × α)
  | [], _, _ => []
  | (k', v') :: t, k, f => if k' = k then (k', f v') :: t else (k', v') :: alUpdate t k f

/-- `Map.delete`. -/
def alDelete {α : Type} : List (String × α) → String → List (String × α)
  | [], _ => []
  | (k', v') :: t, k => if k' = k then t else (k', v') :: alDelete t k

/-- Embedding of `normalize` (engine.ts lines 247-250); `len || 1`. -/
def normalizeQ (v : Vector2) : Vector2 :=
  let len0 := hypotQ v.x v.y
  let len := if len0 = 0 then 1 else len0
  ⟨v.x / len, v.y / len⟩

/-- Embedding of `randomDir` (engine.ts lines 240-245) with the two
`Math.random()` draws injected as arguments. -/
def randomDirQ (r1 r2 : ℚ) : Vector2 :=
  let x := r1 * 2 - 1
  let y := r2 * 2 - 1
  let len0 := hypotQ x y
  let len := if len0 = 0 then 1 else len0
  ⟨x / len, y / len⟩

/-- Embedding of `createWorld` (engine.ts lines 225-230). -/
def createWorld : World := { monkeys := [], teamStats := [], teamPools := [], bananas := [] }

/-- Palette used by `getTeamColor` (engine.ts lines 256-267). -/
def teamColors : List String :=
  ["#DC143C", "#0052CC", "#8B0000", "#FF4500", "#FFD700",
   "#006400", "#800080", "#1E90FF", "#FF1493", "#00CED1"]

/-- JS `parseInt` on the digit strings the program uses as team ids
(the engine only ever derives team ids from a decimal digit). -/
def parseIntStr (s : String) : ℕ := s.toNat?.getD 0

/-- Embedding of `getTeamColor` (engine.ts lines 255-271). -/
def getTeamColor (teamId : String) : String :=
  teamColors.getD (parseIntStr teamId % teamColors.length) ""

/-- Embedding of `getTeamIdFromSolAmount` (engine.ts lines 274-286):
round up to the nearest 0.01, then take the 2nd decimal digit. -/
def getTeamIdFromSolAmount (solAmount : ℚ) : String :=
  let roundedAmount : ℚ := (⌈solAmount * 100⌉ : ℤ) / 100
  let secondDecimalDigit : ℤ := ⌊jsRemQ (roundedAmount * 100) 10⌋
  toString secondDecimalDigit

/-- One step of the greedy allocation loop of `calculateMonkeySpawn`
(engine.ts lines 179-187): state is (results so far, remaining SOL). -/
def spawnAllocStep (acc : List (MonkeyType × ℤ) × ℚ) (mt : MonkeyType) :
    List (MonkeyType × ℤ) × ℚ :=
  let cost := monkeyCost mt
  let count : ℤ := ⌊acc.2 / cost⌋
  if 0 < count then (acc.1 ++ [(mt, count)], acc.2 - (count : ℚ) * cost) else acc

/-- Embedding of `calculateMonkeySpawn` (engine.ts lines 169-190):
greedy largest-tier-first allocation after adding the 0.0001 margin. -/
def calculateMonkeySpawn (solAmount : ℚ) : List (MonkeyType × ℤ) :=
  (([MonkeyType.big, MonkeyType.medium, MonkeyType.small].foldl spawnAllocStep
    ([], solAmount + 1 / 10000))).1

/-- Total number of agents in an allocation (sum of the per-tier counts). -/
def allocTotalCount (l : List (MonkeyType × ℤ)) : ℤ := (l.map (fun p => p.2)).sum

/-- Total SOL cost of an allocation (sum of count × tier cost). -/
def allocTotalCost (l : List (MonkeyType × ℤ)) : ℚ :=
  (l.map (fun p => (p.2 : ℚ) * monkeyCost p.1)).sum

/-- `canCollectBanana` (engine.ts lines 104-106): only injured monkeys collect. -/
def canCollectBanana (monkey : Monkey) : Bool := monkey.hp < monkey.maxHp

-- Oracle records carrying the raw `Math.random()` draws (and the
-- generated id strings) consumed at each call site of the engine.

/-- Random draws used to create one monkey: an id, two jitter draws and
two direction draws. -/
structure MRand where
  rid : String
  rjx : ℚ
  rjy : ℚ
  rd1 : ℚ
  rd2 : ℚ

/-- Random draws for one spawn batch: a base-position draw and one
`MRand` per created monkey. -/
structure SpawnRand where
  px : ℚ
  py : ℚ
  draw : ℕ → MRand

/-- Random draws available to one monkey during a tick: a wander
direction and a boundary-bounce direction. -/
structure StepRand where
  w1 : ℚ
  w2 : ℚ
  b1 : ℚ
  b2 : ℚ

/-- Random draws for one banana spawn. -/
structure BanRand where
  bid : String
  rx : ℚ
  ry : ℚ

/-- Embedding of `spawnBanana` (engine.ts lines 79-89). -/
def spawnBanana (cfg : GameConfig) (r : BanRand) : Banana :=
  let margin := BANANA_SIZE + 10
  { id := r.bid
    position := ⟨margin + r.rx * (cfg.width - 2 * margin),
                 margin + r.ry * (cfg.height - 2 * margin)⟩
    healAmount := BANANA_HEAL_PERCENT }

/-- Embedding of `manageBananas` (engine.ts lines 92-101). -/
def manageBananasQ (w : World) (cfg : GameConfig) (r : BanRand) : World :=
  if w.bananas.length < MAX_BANANAS then
    { w with bananas := w.bananas ++ [spawnBanana cfg r] }
  else w

/-- Embedding of `findNearestBanana` (engine.ts lines 109-124). -/
def findNearestBanana (monkey : Monkey) (bananas : List Banana) : Option Banana :=
  if !(canCollectBanana monkey) || bananas.length == 0 then none
  else
    (bananas.foldl (fun acc banana =>
      let d := hypotQ (monkey.position.x - banana.position.x)
        (monkey.position.y - banana.position.y)
      match acc with
      | none => some (banana, d)
      | some p => if d < p.2 then some (banana, d) else some p) none).map (fun p => p.1)

/-- The hp update applied by the global damage pass (engine.ts line 808):
`Math.max(0, hp - damage)`. -/
def applyDamageHp (hp damage : ℚ) : ℚ := max 0 (hp - damage)

/-- The hp update applied by banana collection (engine.ts line 144):
`Math.min(maxHp, hp + healAmount)`. -/
def applyHealHp (maxHp hp healAmount : ℚ) : ℚ := min maxHp (hp + healAmount)

/-- Index of the first banana within collection range of a monkey
(the scan order of the loop in engine.ts lines 133-156). -/
def firstBananaIdx (m : Monkey) (bs : List Banana) : Option ℕ :=
  bs.findIdx? (fun b =>
    hypotQ (m.position.x - b.position.x) (m.position.y - b.position.y) ≤
      (getMonkeyStats m.monkeyType).size / 2 + BANANA_SIZE / 2)

/-- The monkey-map of `collectBananas` threading the shared mutable
banana array (engine.ts lines 127-159): each monkey in order either
collects (and removes) the first banana in range, or passes through. -/
def collectGo : List Monkey → List Banana → List Monkey × List Banana
  | [], bs => ([], bs)
  | m :: rest, bs =>
    if canCollectBanana m then
      match firstBananaIdx m bs with
      | some i =>
        match bs.get? i with
        | some b =>
          let healAmount : ℚ := ((⌊m.maxHp * b.healAmount⌋ : ℤ) : ℚ)
          let m2 := { m with hp := applyHealHp m.maxHp m.hp healAmount }
          let r := collectGo rest (bs.eraseIdx i)
          (m2 :: r.1, r.2)
        | none =>
          let r := collectGo rest bs
          (m :: r.1, r.2)
      | none =>
        let r := collectGo rest bs
        (m :: r.1, r.2)
    else
      let r := collectGo rest bs
      (m :: r.1, r.2)

/-- Embedding of `collectBananas` (engine.ts lines 127-166). -/
def collectBananasQ (w : World) : World :=
  let r := collectGo w.monkeys w.bananas
  { w with monkeys := r.1, bananas := r.2 }

/-- A freshly spawned monkey (engine.ts lines 471-492 and 533-555). -/
def mkSpawnedMonkey (teamId : String) (mt : MonkeyType) (spawnPos : Vector2)
    (r : MRand) : Monkey :=
  let stats := getMonkeyStats mt
  { id := r.rid
    teamId := teamId
    monkeyType := mt
    position := ⟨spawnPos.x + (r.rjx - 1 / 2) * 40, spawnPos.y + (r.rjy - 1 / 2) * 40⟩
    velocity := randomDirQ r.rd1 r.rd2
    hp := stats.maxHp
    maxHp := stats.maxHp
    lastAttackAtMs := 0
    targetId := none
    wanderChangeAtMs := 0
    isUnderAttack := false
    killedBy := none
    animationFrame := 0
    lastAnimationUpdate := 0
    isFighting := false
    facingLeft := false
    collisionRadius := stats.collisionRadius }

/-- Embedding of `spawnMonkeys` (engine.ts lines 404-506): spawn up to
the free capacity, send the overflow to the team's reserves. -/
def spawnMonkeysQ (w : World) (count : ℤ) (teamId : String) (mt : MonkeyType)
    (atPos : Option Vector2) (cfg : GameConfig) (r : SpawnRand) : World :=
  if count ≤ 0 then w
  else
    let availableSlots : ℤ := max 0 (cfg.maxMonkeys - w.monkeys.length)
    let monkeysToSpawn : ℤ := min count availableSlots
    let monkeysToReserve : ℤ := count - monkeysToSpawn
    let newTeamStats :=
      match alGet w.teamStats teamId with
      | some s =>
        alSet w.teamStats teamId
          { s with spawned := s.spawned + count
                   alive := s.alive + monkeysToSpawn
                   reserves := s.reserves + monkeysToReserve
                   monkeyType :=
                     if monkeyCost s.monkeyType < monkeyCost mt then mt else s.monkeyType }
      | none =>
        alSet w.teamStats teamId
          { teamId := teamId
            color := getTeamColor teamId
            totalSol := 0
            spawned := count
            alive := monkeysToSpawn
            dead := 0
            kills := 0
            reserves := monkeysToReserve
            monkeyType := mt
            fundingWallets := [] }
    if monkeysToSpawn = 0 then
      { monkeys := w.monkeys, teamStats := newTeamStats,
        teamPools := w.teamPools, bananas := w.bananas }
    else
      let spawnPos : Vector2 :=
        atPos.getD ⟨r.px * (cfg.width - 100) + 50, r.py * (cfg.height - 100) + 50⟩
      let newMonkeys :=
        (List.range monkeysToSpawn.toNat).map (fun i => mkSpawnedMonkey teamId mt spawnPos (r.draw i))
      { monkeys := w.monkeys ++ newMonkeys, teamStats := newTeamStats,
        teamPools := w.teamPools, bananas := w.bananas }

/-- The team loop of `spawnFromReserves` (engine.ts lines 520-566):
walks the team-stats entries in insertion order threading the number of
slots used, draining each team's reserves into fresh monkeys. -/
def reservesGo (cfg : GameConfig) (availableSlots : ℤ) (resR : ℕ → SpawnRand) :
    List (String × TeamStats) → ℤ → ℕ → List (String × TeamStats) × List Monkey
  | [], _, _ => ([], [])
  | e :: rest, slotsUsed, idx =>
    if e.2.reserves = 0 ∨ availableSlots ≤ slotsUsed then
      let r := reservesGo cfg availableSlots resR rest slotsUsed (idx + 1)
      (e :: r.1, r.2)
    else
      let monkeysToSpawn : ℤ := min e.2.reserves (availableSlots - slotsUsed)
      let rr := resR idx
      let spawnPos : Vector2 := ⟨rr.px * (cfg.width - 100) + 50, rr.py * (cfg.height - 100) + 50⟩
      let batch := (List.range monkeysToSpawn.toNat).map
        (fun i => mkSpawnedMonkey e.1 e.2.monkeyType spawnPos (rr.draw i))
      let r := reservesGo cfg availableSlots resR rest (slotsUsed + monkeysToSpawn) (idx + 1)
      ((e.1, { e.2 with reserves := e.2.reserves - monkeysToSpawn,
                        alive := e.2.alive + monkeysToSpawn }) :: r.1,
       batch ++ r.2)

/-- Embedding of `spawnFromReserves` (engine.ts lines 509-576). -/
def spawnFromReservesQ (w : World) (cfg : GameConfig) (resR : ℕ → SpawnRand) : World :=
  let availableSlots : ℤ := max 0 (cfg.maxMonkeys - w.monkeys.length)
  if availableSlots = 0 then w
  else
    let r := reservesGo cfg availableSlots resR w.teamStats 0 0
    if r.2 = [] then w
    else
      { monkeys := w.monkeys ++ r.2, teamStats := r.1,
        teamPools := w.teamPools, bananas := w.bananas }

/-- One iteration of the nearest-enemy scan (engine.ts lines 581-588):
skip teammates, keep the strictly nearest candidate seen so far. -/
def nearestEnemyStep (self : Monkey) (acc : Option (Monkey × ℚ)) (other : Monkey) :
    Option (Monkey × ℚ) :=
  if other.teamId = self.teamId then acc
  else
    let d := hypotQ (other.position.x - self.position.x) (other.position.y - self.position.y)
    match acc with
    | none => some (other, d)
    | some p => if d < p.2 then some (other, d) else some p

/-- Embedding of `findNearestEnemy` (engine.ts lines 578-590). -/
def findNearestEnemy (self : Monkey) (monkeys : List Monkey) : Option Monkey :=
  (monkeys.foldl (nearestEnemyStep self) none).map (fun p => p.1)

/-- One iteration of the threatened-ally scan (engine.ts lines 595-603):
skip enemies and un-threatened teammates, keep the strictly nearest. -/
def threatenedStep (self : Monkey) (acc : Option (Monkey × ℚ)) (other : Monkey) :
    Option (Monkey × ℚ) :=
  if other.teamId = self.teamId ∧ other.isUnderAttack then
    let d := hypotQ (other.position.x - self.position.x) (other.position.y - self.position.y)
    match acc with
    | none => some (other, d)
    | some p => if d < p.2 then some (other, d) else some p
  else acc

/-- Embedding of `findNearestThreatenedAlly` (engine.ts lines 592-605):
nearest same-team monkey whose `isUnderAttack` flag is set. -/
def findNearestThreatenedAlly (self : Monkey) (monkeys : List Monkey) : Option Monkey :=
  (monkeys.foldl (threatenedStep self) none).map (fun p => p.1)

/-- Embedding of `checkBoundaryCollisions` (engine.ts lines 608-627). -/
def checkBoundaryCollisions (originalPos newPos : Vector2) (cfg : GameConfig)
    (monkeySize : ℚ) : Bool :=
  let halfSize := monkeySize / 2
  let minX := halfSize
  let maxX := cfg.width - halfSize
  let minY := halfSize
  let maxY := cfg.height - halfSize
  (decide (originalPos.x < minX) && decide (newPos.x = minX)) ||
  (decide (maxX < originalPos.x) && decide (newPos.x = maxX)) ||
  (decide (originalPos.y < minY) && decide (newPos.y = minY)) ||
  (decide (maxY < originalPos.y) && decide (newPos.y = maxY))

/-- Embedding of `resolveMonkeyCollision` (engine.ts lines 630-655):
one pass over the other monkeys, pushing this monkey away from each
overlap by half the overlap along the connecting normal. -/
def resolveMonkeyCollision (monkey : Monkey) (otherMonkeys : List Monkey) : Vector2 :=
  otherMonkeys.foldl (fun adjustedPos other =>
    if monkey.id = other.id then adjustedPos
    else
      let dx := adjustedPos.x - other.position.x
      let dy := adjustedPos.y - other.position.y
      let distance := hypotQ dx dy
      let minDistance := monkey.collisionRadius + other.collisionRadius
      if distance < minDistance ∧ 0 < distance then
        let separation := minDistance - distance
        let normalX := dx / distance
        let normalY := dy / distance
        ⟨adjustedPos.x + normalX * separation * (1 / 2),
         adjustedPos.y + normalY * separation * (1 / 2)⟩
      else adjustedPos) ⟨monkey.position.x, monkey.position.y⟩

/-- The `allyInTrouble ?? findNearestEnemy` focus selection of
`stepWorld` (engine.ts lines 682-684): with combat enabled, a
threatened teammate takes priority over the nearest enemy. -/
def chooseFocus (self : Monkey) (monkeys : List Monkey) (fightingEnabled : Bool) :
    Option Monkey :=
  if fightingEnabled then
    match findNearestThreatenedAlly self monkeys with
    | some ally => some ally
    | none => findNearestEnemy self monkeys
  else none

/-- The steering decision toward the selected focus (engine.ts lines
686-698): stop and fight within attack range, else head straight at it;
returns the desired velocity and the fighting flag. -/
def steerToFocus (self : Monkey) (focus : Option Monkey) : Vector2 × Bool :=
  match focus with
  | none => (self.velocity, false)
  | some enemy =>
    let dist := hypotQ (enemy.position.x - self.position.x)
      (enemy.position.y - self.position.y)
    if dist ≤ ATTACK_RANGE then (⟨0, 0⟩, true)
    else
      (⟨(enemy.position.x - self.position.x) / (if dist = 0 then 1 else dist),
        (enemy.position.y - self.position.y) / (if dist = 0 then 1 else dist)⟩, false)

/-- The per-axis arena clamp of `stepWorld` (engine.ts lines 728-731):
positions are clamped to the arena inset by half the agent's size. -/
def clampToArena (cfg : GameConfig) (size : ℚ) (p : Vector2) : Vector2 :=
  ⟨clampQ p.x (size / 2) (cfg.width - size / 2),
   clampQ p.y (size / 2) (cfg.height - size / 2)⟩

/-- The body of the per-monkey map of `stepWorld` (engine.ts lines
676-795), with the monkey's two potential `randomDir` draws injected. -/
def stepMonkey (monkeys : List Monkey) (bananas : List Banana) (dt now : ℚ)
    (cfg : GameConfig) (fightingEnabled : Bool) (rnd : StepRand) (self : Monkey) : Monkey :=
  let focus := chooseFocus self monkeys fightingEnabled
  let steer := steerToFocus self focus
  let isFighting := steer.2
  let desired1 :=
    if focus.isNone then
      match findNearestBanana self bananas with
      | some banana =>
        normalizeQ ⟨banana.position.x - self.position.x, banana.position.y - self.position.y⟩
      | none =>
        if decide (self.wanderChangeAtMs ≤ now) || self.isFighting then randomDirQ rnd.w1 rnd.w2
        else steer.1
    else steer.1
  let stats := getMonkeyStats self.monkeyType
  let proposedPos : Vector2 :=
    ⟨self.position.x + desired1.x * stats.speed * dt,
     self.position.y + desired1.y * stats.speed * dt⟩
  let pos1 := clampToArena cfg stats.size proposedPos
  let hitBoundary := checkBoundaryCollisions proposedPos pos1 cfg stats.size
  let desired2 := if !isFighting && hitBoundary then randomDirQ rnd.b1 rnd.b2 else desired1
  let pos2 := resolveMonkeyCollision { self with position := pos1 } monkeys
  let atk : ℚ × Option String :=
    match focus with
    | some enemy =>
      let dist := hypotQ (enemy.position.x - pos2.x) (enemy.position.y - pos2.y)
      if dist ≤ ATTACK_RANGE ∧ ATTACK_COOLDOWN_MS ≤ now - self.lastAttackAtMs then
        (now, some enemy.id)
      else (self.lastAttackAtMs, self.targetId)
    | none => (self.lastAttackAtMs, self.targetId)
  let isMoving := decide (1 / 10 < hypotQ desired2.x desired2.y)
  let animationChanged := self.isFighting != isFighting
  let facingLeft :=
    if isMoving && decide (1 / 10 < |desired2.x|) then decide (desired2.x < 0)
    else self.facingLeft
  let anim : ℤ × ℚ :=
    if decide (ANIMATION_SPEED ≤ now - self.lastAnimationUpdate) || animationChanged then
      (if isFighting then Int.tmod (self.animationFrame + 1) 4
       else if isMoving then Int.tmod (self.animationFrame + 1) 3
       else 0, now)
    else (self.animationFrame, self.lastAnimationUpdate)
  { id := self.id
    teamId := self.teamId
    monkeyType := self.monkeyType
    position := pos2
    velocity := desired2
    hp := self.hp
    maxHp := self.maxHp
    lastAttackAtMs := atk.1
    targetId := atk.2
    wanderChangeAtMs := now + WANDER_INTERVAL_MS
    isUnderAttack := self.isUnderAttack
    killedBy := self.killedBy
    animationFrame := anim.1
    lastAnimationUpdate := anim.2
    isFighting := isFighting
    facingLeft := facingLeft
    collisionRadius := self.collisionRadius }

/-- `isUnderAttack` reset at the start of each tick (engine.ts lines
670-674); `collisionRadius ?? BASE_COLLISION_RADIUS` never fires on a
typed value and is the identity here. -/
def resetMonkey (m : Monkey) : Monkey := { m with isUnderAttack := false }

/-- The `monkeys.map(...)` pass of `stepWorld` with per-monkey random
draws indexed by list position. -/
def stepAllGo (monkeys : List Monkey) (bananas : List Banana) (dt now : ℚ)
    (cfg : GameConfig) (fightingEnabled : Bool) (stepR : ℕ → StepRand) :
    List Monkey → ℕ → List Monkey
  | [], _ => []
  | self :: rest, i =>
    stepMonkey monkeys bananas dt now cfg fightingEnabled (stepR i) self ::
      stepAllGo monkeys bananas dt now cfg fightingEnabled stepR rest (i + 1)

/-- The in-range hit of the damage pass (engine.ts lines 804-815):
when the victim at index `j` is within attack range, its hp is floored
at 0, it is flagged under attack, and on a death transition the
attacking team is recorded as its killer. -/
def damageTryHit (l : List Monkey) (attacker : Monkey) (j : ℕ) (victim : Monkey) :
    List Monkey :=
  if hypotQ (victim.position.x - attacker.position.x)
      (victim.position.y - attacker.position.y) ≤ ATTACK_RANGE then
    let newHp := applyDamageHp victim.hp (getMonkeyStats attacker.monkeyType).damage
    l.set j
      { victim with hp := newHp
                    isUnderAttack := true
                    killedBy :=
                      if 0 < victim.hp ∧ newHp ≤ 0 then some attacker.teamId
                      else victim.killedBy }
  else l

/-- Clearing of the attacker's consumed intent (engine.ts line 816). -/
def clearTargetAt (l : List Monkey) (i : ℕ) : List Monkey :=
  match l.get? i with
  | none => l
  | some a2 => l.set i { a2 with targetId := none }

/-- One iteration of the global damage pass (engine.ts lines 799-817),
acting on the attacker at index `i` of the mutable `next` array: a
missing target id, an unresolvable target or a same-team victim leave
the array untouched (and the intent uncleared); otherwise the hit is
attempted and the attacker's intent is cleared. -/
def damageStep (l : List Monkey) (i : ℕ) : List Monkey :=
  match l.get? i with
  | none => l
  | some attacker =>
    match attacker.targetId with
    | none => l
    | some tid =>
      match l.findIdx? (fun m => m.id = tid) with
      | none => l
      | some j =>
        match l.get? j with
        | none => l
        | some victim =>
          if victim.teamId = attacker.teamId then l
          else clearTargetAt (damageTryHit l attacker j victim) i

/-- The global damage pass (engine.ts lines 798-817): every index of the
stepped array acts as attacker in order, mutating the shared array. -/
def damagePass (l : List Monkey) : List Monkey := (List.range l.length).foldl damageStep l

/-- The stepped-and-damaged agent array of one tick: reset flags, move
every agent, then run the damage pass (or clear every `targetId` when
combat is disabled, engine.ts lines 818-823). -/
def stepDamagePhase (w : World) (dt now : ℚ) (cfg : GameConfig)
    (fightingEnabled : Bool) (stepR : ℕ → StepRand) : List Monkey :=
  let ms := w.monkeys.map resetMonkey
  let stepped := stepAllGo ms w.bananas dt now cfg fightingEnabled stepR ms 0
  if fightingEnabled then damagePass stepped
  else stepped.map (fun m => { m with targetId := none })

/-- Count of monkeys on a given team (engine.ts line 848). -/
def countTeam (l : List Monkey) (t : String) : ℕ :=
  (l.filter (fun m => m.teamId = t)).length

/-- Death bookkeeping for one dead monkey (engine.ts lines 830-844). -/
def deadFoldStep (acc : List (String × TeamStats)) (dm : Monkey) :
    List (String × TeamStats) :=
  let acc1 := alUpdate acc dm.teamId
    (fun s => { s with alive := max 0 (s.alive - 1), dead := s.dead + 1 })
  match dm.killedBy with
  | some k => alUpdate acc1 k (fun s => { s with kills := s.kills + 1 })
  | none => acc1

/-- The survivors of the tick: stepped agents with `hp > 0`
(engine.ts line 825). -/
def stepAliveList (w : World) (dt now : ℚ) (cfg : GameConfig)
    (fightingEnabled : Bool) (stepR : ℕ → StepRand) : List Monkey :=
  (stepDamagePhase w dt now cfg fightingEnabled stepR).filter (fun m => 0 < m.hp)

/-- The agents that died this tick: stepped agents with `hp ≤ 0`
(engine.ts line 826). -/
def stepDeadList (w : World) (dt now : ℚ) (cfg : GameConfig)
    (fightingEnabled : Bool) (stepR : ℕ → StepRand) : List Monkey :=
  (stepDamagePhase w dt now cfg fightingEnabled stepR).filter (fun m => m.hp ≤ 0)

/-- The tick up to and including the population reconciliation
(engine.ts lines 825-857): partition the stepped agents into alive and
dead, apply death/kill bookkeeping, then recompute every team's `alive`
counter from the live list. -/
def stepWorldReconciled (w : World) (dt now : ℚ) (cfg : GameConfig)
    (fightingEnabled : Bool) (stepR : ℕ → StepRand) : World :=
  let aliveL := stepAliveList w dt now cfg fightingEnabled stepR
  let deadL := stepDeadList w dt now cfg fightingEnabled stepR
  let stats1 := deadL.foldl deadFoldStep w.teamStats
  let stats2 := stats1.map (fun p => (p.1, { p.2 with alive := (countTeam aliveL p.1 : ℤ) }))
  { monkeys := aliveL, teamStats := stats2, teamPools := w.teamPools, bananas := w.bananas }

/-- Embedding of `stepWorld` (engine.ts lines 657-871): move and fight,
reconcile populations, promote reserves when someone died, collect
bananas, then top bananas up. -/
def stepWorldQ (w : World) (dt now : ℚ) (cfg : GameConfig) (fightingEnabled : Bool)
    (stepR : ℕ → StepRand) (resR : ℕ → SpawnRand) (banR : BanRand) : World :=
  let deadL := stepDeadList w dt now cfg fightingEnabled stepR
  let w1 := stepWorldReconciled w dt now cfg fightingEnabled stepR
  let w2 := if 0 < deadL.length then spawnFromReservesQ w1 cfg resR else w1
  let w3 := collectBananasQ w2
  manageBananasQ w3 cfg banR

/-- Embedding of `processTransaction` (engine.ts lines 308-402). -/
def processTransactionQ (w : World) (t : TransactionEvent) : World :=
  let pool0 := (alGet w.teamPools t.teamId).getD
    { teamId := t.teamId, totalSol := 0, fundingWallets := [] }
  let stats0 := (alGet w.teamStats t.teamId).getD
    { teamId := t.teamId, color := getTeamColor t.teamId, totalSol := 0, spawned := 0,
      alive := 0, dead := 0, kills := 0, reserves := 0, monkeyType := MonkeyType.small,
      fundingWallets := [] }
  if t.isSell then
    let currentContribution := (alGet pool0.fundingWallets t.wallet).getD 0
    if 0 < currentContribution then
      let amountToRemove := min t.sol currentContribution
      let newTotal := max 0 (pool0.totalSol - amountToRemove)
      let newContribution := currentContribution - amountToRemove
      let pool1 :=
        if newContribution ≤ 0 then
          { pool0 with totalSol := newTotal,
                       fundingWallets := alDelete pool0.fundingWallets t.wallet }
        else
          { pool0 with totalSol := newTotal,
                       fundingWallets := alSet pool0.fundingWallets t.wallet newContribution }
      let stats1 :=
        if newContribution ≤ 0 then
          { stats0 with totalSol := newTotal,
                        fundingWallets := alDelete stats0.fundingWallets t.wallet }
        else
          { stats0 with totalSol := newTotal,
                        fundingWallets := alSet stats0.fundingWallets t.wallet newContribution }
      { w with teamPools := alSet w.teamPools t.teamId pool1,
               teamStats := alSet w.teamStats t.teamId stats1 }
    else
      { w with teamPools := alSet w.teamPools t.teamId pool0,
               teamStats := alSet w.teamStats t.teamId stats0 }
  else
    let currentContribution := (alGet pool0.fundingWallets t.wallet).getD 0
    let newContribution := currentContribution + t.sol
    let pool1 := { pool0 with totalSol := pool0.totalSol + t.sol,
                              fundingWallets := alSet pool0.fundingWallets t.wallet newContribution }
    let stats1 := { stats0 with totalSol := pool1.totalSol,
                                fundingWallets := alSet stats0.fundingWallets t.wallet newContribution }
    { w with teamPools := alSet w.teamPools t.teamId pool1,
             teamStats := alSet w.teamStats t.teamId stats1 }

/-- Inner loop of `spawnMonkeysFromPools` over one team's allocation
(engine.ts lines 883-893). -/
def poolSpawnInner (cfg : GameConfig) (tid : String) (r : ℕ → SpawnRand) :
    List (MonkeyType × ℤ) → World → ℕ → World
  | [], w, _ => w
  | p :: rest, w, j =>
    if 0 < p.2 then
      poolSpawnInner cfg tid r rest (spawnMonkeysQ w p.2 tid p.1 none cfg (r j)) (j + 1)
    else poolSpawnInner cfg tid r rest w (j + 1)

/-- Outer loop of `spawnMonkeysFromPools` over the (input) team pools
(engine.ts lines 878-897). -/
def poolsGo (cfg : GameConfig) (oracle : ℕ → ℕ → SpawnRand) :
    List (String × TeamPool) → World → ℕ → World
  | [], w, _ => w
  | e :: rest, w, i =>
    if 0 < e.2.totalSol then
      poolsGo cfg oracle rest
        (poolSpawnInner cfg e.1 (oracle i) (calculateMonkeySpawn e.2.totalSol) w 0) (i + 1)
    else poolsGo cfg oracle rest w (i + 1)

/-- Embedding of `spawnMonkeysFromPools` (engine.ts lines 874-900). -/
def spawnMonkeysFromPoolsQ (w : World) (cfg : GameConfig)
    (oracle : ℕ → ℕ → SpawnRand) : World :=
  poolsGo cfg oracle w.teamPools w 0

/-- One driver-level operation on the world: a direct spawn request, a
timer sweep of the funding pools, one tick, or one funding transaction. -/
inductive EngineOp where
  | spawn (count : ℤ) (teamId : String) (mt : MonkeyType) (atPos : Option Vector2) (r : SpawnRand)
  | pools (r : ℕ → ℕ → SpawnRand)
  | tick (dt now : ℚ) (fightingEnabled : Bool) (stepR : ℕ → StepRand)
      (resR : ℕ → SpawnRand) (banR : BanRand)
  | tx (t : TransactionEvent)

/-- Apply one driver operation. -/
def applyOp (cfg : GameConfig) (w : World) : EngineOp → World
  | EngineOp.spawn count teamId mt atPos r => spawnMonkeysQ w count teamId mt atPos cfg r
  | EngineOp.pools r => spawnMonkeysFromPoolsQ w cfg r
  | EngineOp.tick dt now fe stepR resR banR => stepWorldQ w dt now cfg fe stepR resR banR
  | EngineOp.tx t => processTransactionQ w t

/-- Run a sequence of driver operations from the empty world. -/
def runOps (cfg : GameConfig) (ops : List EngineOp) : World :=
  ops.foldl (applyOp cfg) createWorld

/-- Decidable well-formedness facts about a world that the JS data
model guarantees by construction: `Map` keys are unique, every banana
heal fraction is nonnegative (the engine only ever creates bananas with
`BANANA_HEAL_PERCENT = 0.1`), and reserve counters are nonnegative. -/
def WFWorld (w : World) : Prop :=
  (w.teamStats.map Prod.fst).Nodup ∧
  (∀ b ∈ w.bananas, 0 ≤ b.healAmount) ∧
  (∀ p ∈ w.teamStats, 0 ≤ p.2.reserves)

/-- Number of live monkeys of a team in an agent list. -/
def countLiveTeam (l : List Monkey) (t : String) : ℤ :=
  ((l.filter (fun m => m.teamId = t ∧ 0 < m.hp)).length : ℤ)

/-- The team-stats update performed by `spawnMonkeys` (engine.ts lines
416-436), with the number of agents actually spawned passed explicitly. -/
def spawnStatsUpdate (w : World) (count toSpawn : ℤ) (teamId : String) (mt : MonkeyType) :
    List (String × TeamStats) :=
  match alGet w.teamStats teamId with
  | some s =>
    alSet w.teamStats teamId
      { s with spawned := s.spawned + count
               alive := s.alive + toSpawn
               reserves := s.reserves + (count - toSpawn)
               monkeyType :=
                 if monkeyCost s.monkeyType < monkeyCost mt then mt else s.monkeyType }
  | none =>
    alSet w.teamStats teamId
      { teamId := teamId
        color := getTeamColor teamId
        totalSol := 0
        spawned := count
        alive := toSpawn
        dead := 0
        kills := 0
        reserves := count - toSpawn
        monkeyType := mt
        fundingWallets := [] }

/-- The capacity/counter invariant of the driver loop: the live agent
list never exceeds the configured maximum, team keys are unique,
reserve counters are nonnegative, every team satisfies
`spawned = alive + dead + reserves`, every `alive` counter equals the
count of its team's agents, and every agent's team has a stats entry. -/
def EngineInv (cfg : GameConfig) (w : World) : Prop :=
  ((w.monkeys.length : ℤ) ≤ cfg.maxMonkeys) ∧
  (w.teamStats.map Prod.fst).Nodup ∧
  (∀ e ∈ w.teamStats, 0 ≤ e.2.reserves) ∧
  (∀ e ∈ w.teamStats, e.2.spawned = e.2.alive + e.2.dead + e.2.reserves) ∧
  (∀ e ∈ w.teamStats, e.2.alive = (countTeam w.monkeys e.1 : ℤ)) ∧
  (∀ m ∈ w.monkeys, m.teamId ∈ w.teamStats.map Prod.fst)

-- Concrete instances for counterexamples and witnesses.

/-- Trivial random source for ticks. -/
def zeroStepR : ℕ → StepRand := fun _ => ⟨0, 0, 0, 0⟩

/-- Trivial random source for spawn batches. -/
def zeroSpawnR : ℕ → SpawnRand := fun _ => ⟨0, 0, fun _ => ⟨"fresh", 1 / 2, 1 / 2, 0, 0⟩⟩

/-- Trivial random source for banana spawns. -/
def zeroBanR : BanRand := ⟨"ban", 0, 0⟩

/-- A template small monkey at full health used to build test worlds. -/
def baseSmallMonkey : Monkey :=
  { id := "m"
    teamId := "0"
    monkeyType := MonkeyType.small
    position := ⟨100, 100⟩
    velocity := ⟨0, 0⟩
    hp := 100
    maxHp := 100
    lastAttackAtMs := 0
    targetId := none
    wanderChangeAtMs := 1000000
    isUnderAttack := false
    killedBy := none
    animationFrame := 0
    lastAnimationUpdate := 0
    isFighting := false
    facingLeft := false
    collisionRadius := 2 }

/-- Default team-stats record used to build test worlds. -/
def baseTeamStats : TeamStats :=
  { teamId := "0", color := "#DC143C", totalSol := 0, spawned := 0, alive := 0, dead := 0,
    kills := 0, reserves := 0, monkeyType := MonkeyType.small, fundingWallets := [] }

/-- Arena for the boundary counterexample. -/
def cfgC6 : GameConfig := ⟨200, 200, 10⟩

/-- Two same-team monkeys standing still, strictly inside the inset
arena bounds `[24, 176]`, but within collision range of each other and
next to the left wall. -/
def worldC6 : World :=
  { monkeys :=
      [{ baseSmallMonkey with id := "a", position := ⟨49 / 2, 100⟩ },
       { baseSmallMonkey with id := "b", position := ⟨51 / 2, 100⟩ }]
    teamStats := [("0", { baseTeamStats with spawned := 2, alive := 2 })]
    teamPools := []
    bananas := [] }

/-- Arena for the distress-signal failing input. -/
def cfgC2 : GameConfig := ⟨400, 400, 10⟩

/-- Distress-signal failing input: rescuer `r` (team 0) at x = 100, its
teammate `y` at x = 130 carrying `isUnderAttack = true` from the
previous tick, and an enemy `e` (team 1) in the opposite direction at
x = 50. -/
def worldC2 : World :=
  { monkeys :=
      [{ baseSmallMonkey with id := "r", position := ⟨100, 100⟩ },
       { baseSmallMonkey with id := "y", position := ⟨130, 100⟩, hp := 50,
                              isUnderAttack := true },
       { baseSmallMonkey with id := "e", teamId := "1", position := ⟨50, 100⟩ }]
    teamStats := []
    teamPools := []
    bananas := [] }

/-- The fields of an agent never touched by movement, damage or
collection: id, team, max health and tier. -/
def staticProj (m : Monkey) : String × String × ℚ × MonkeyType :=
  (m.id, m.teamId, m.maxHp, m.monkeyType)

/-- Injured test monkey for the C8 witness. -/
def monkeyC8 : Monkey := { baseSmallMonkey with hp := 99 }

/-- Test banana standing exactly on the C8 witness monkey. -/
def bananaC8 : Banana := ⟨"b0", ⟨100, 100⟩, 1 / 10⟩

/-- Concrete world for the C9 witness: team 4's pool holds 5 SOL,
wallet w1 contributed 3 of it. -/
def worldC9 : World :=
  { monkeys := []
    teamStats := []
    teamPools := [("4", { teamId := "4", totalSol := 5, fundingWallets := [("w1", 3)] })]
    bananas := [] }

/-- Sell of 2 SOL by wallet w1 against team 4. -/
def txC9 : TransactionEvent :=
  { signature := "s", wallet := "w1", sol := 2, isSell := true, teamId := "4", ts := 0 }

/-- Total SOL currently recorded in a team's funding pool (0 when the
team has no pool yet). -/
def poolTotalSol (w : World) (tid : String) : ℚ :=
  ((alGet w.teamPools tid).map (fun p => p.totalSol)).getD 0

/-- A wallet's recorded contribution to a team's pool (0 when absent). -/
def walletContribution (w : World) (tid wal : String) : ℚ :=
  ((alGet w.teamPools tid).bind (fun p => alGet p.fundingWallets wal)).getD 0

-- Basic lemmas about the embedding.

/-- A single hp-mutating operation of the engine: a damage application
(engine.ts line 808) or a banana heal (engine.ts line 144). -/
inductive HpOp where
  | damage (amount : ℚ)
  | heal (amount : ℚ)

/-- The raw amount carried by an hp operation. -/
def hpOpAmount : HpOp → ℚ
  | HpOp.damage a => a
  | HpOp.heal a => a

/-- Apply one hp operation to a current hp, as the engine does. -/
def applyHpOp (maxHp hp : ℚ) : HpOp → ℚ
  | HpOp.damage a => applyDamageHp hp a
  | HpOp.heal a => applyHealHp maxHp hp a

theorem stepMonkey_hp (monkeys : List Monkey) (bananas : List Banana) (dt now : ℚ)
    (cfg : GameConfig) (fe : Bool) (rnd : StepRand) (self : Monkey) :
    (stepMonkey monkeys bananas dt now cfg fe rnd self).hp = self.hp := rfl

theorem stepMonkey_teamId (monkeys : List Monkey) (bananas : List Banana) (dt now : ℚ)
    (cfg : GameConfig) (fe : Bool) (rnd : StepRand) (self : Monkey) :
    (stepMonkey monkeys bananas dt now cfg fe rnd self).teamId = self.teamId := rfl

theorem stepMonkey_id (monkeys : List Monkey) (bananas : List Banana) (dt now : ℚ)
    (cfg : GameConfig) (fe : Bool) (rnd : StepRand) (self : Monkey) :
    (stepMonkey monkeys bananas dt now cfg fe rnd self).id = self.id := rfl

theorem stepMonkey_maxHp (monkeys : List Monkey) (bananas : List Banana) (dt now : ℚ)
    (cfg : GameConfig) (fe : Bool) (rnd : StepRand) (self : Monkey) :
    (stepMonkey monkeys bananas dt now cfg fe rnd self).maxHp = self.maxHp := rfl

theorem stepMonkey_monkeyType (monkeys : List Monkey) (bananas : List Banana) (dt now : ℚ)
    (cfg : GameConfig) (fe : Bool) (rnd : StepRand) (self : Monkey) :
    (stepMonkey monkeys bananas dt now cfg fe rnd self).monkeyType = self.monkeyType := rfl

theorem clampQ_mem (value lo hi : ℚ) (h : lo ≤ hi) :
    lo ≤ clampQ value lo hi ∧ clampQ value lo hi ≤ hi := by
  unfold clampQ
  split_ifs with h1 h2 <;> constructor <;> linarith

/-- The tick resets every `isUnderAttack` flag before behaviour
selection, so the threatened-ally scan never finds a candidate. -/
theorem threatened_scan_dead (self : Monkey) (l : List Monkey)
    (acc : Option (Monkey × ℚ)) :
    (l.map resetMonkey).foldl (threatenedStep self) acc = acc := by
  induction l generalizing acc with
  | nil => rfl
  | cons m rest ih =>
    simp only [List.map_cons, List.foldl_cons]
    rw [show threatenedStep self acc (resetMonkey m) = acc by
      simp [threatenedStep, resetMonkey]]
    exact ih acc

theorem allocTotalCost_append (l : List (MonkeyType × ℤ)) (mt : MonkeyType) (c : ℤ) :
    allocTotalCost (l ++ [(mt, c)]) = allocTotalCost l + (c : ℚ) * monkeyCost mt := by
  simp [allocTotalCost]

theorem spawnAllocStep_spec (acc : List (MonkeyType × ℤ) × ℚ) (mt : MonkeyType)
    (h : 0 ≤ acc.2) (hc : 0 < monkeyCost mt) :
    allocTotalCost (spawnAllocStep acc mt).1 =
        allocTotalCost acc.1 + ((⌊acc.2 / monkeyCost mt⌋ : ℤ) : ℚ) * monkeyCost mt ∧
      (spawnAllocStep acc mt).2 =
        acc.2 - ((⌊acc.2 / monkeyCost mt⌋ : ℤ) : ℚ) * monkeyCost mt ∧
      0 ≤ (spawnAllocStep acc mt).2 := by
  have hfl : ((⌊acc.2 / monkeyCost mt⌋ : ℤ) : ℚ) * monkeyCost mt ≤ acc.2 := by
    have h1 : ((⌊acc.2 / monkeyCost mt⌋ : ℤ) : ℚ) ≤ acc.2 / monkeyCost mt :=
      Int.floor_le _
    calc ((⌊acc.2 / monkeyCost mt⌋ : ℤ) : ℚ) * monkeyCost mt
        ≤ acc.2 / monkeyCost mt * monkeyCost mt := by
          exact mul_le_mul_of_nonneg_right h1 (le_of_lt hc)
      _ = acc.2 := div_mul_cancel₀ _ (ne_of_gt hc)
  have hnn : 0 ≤ ⌊acc.2 / monkeyCost mt⌋ := Int.floor_nonneg.mpr (by positivity)
  unfold spawnAllocStep
  by_cases hpos : 0 < ⌊acc.2 / monkeyCost mt⌋
  · rw [if_pos hpos]
    refine ⟨allocTotalCost_append _ _ _, rfl, ?_⟩
    simpa using hfl
  · rw [if_neg hpos]
    have hz : ⌊acc.2 / monkeyCost mt⌋ = 0 := le_antisymm (not_lt.mp hpos) hnn
    rw [hz]
    refine ⟨by simp, by simp, h⟩

theorem allocCost_closed (a : ℚ) (ha : 0 ≤ a) :
    allocTotalCost (calculateMonkeySpawn a) =
      ((⌊(a + 1 / 10000) * 10⌋ : ℤ) : ℚ) / 10 := by
  have hr : 0 ≤ a + 1 / 10000 := by linarith
  have s1 := spawnAllocStep_spec ([], a + 1 / 10000) MonkeyType.big hr
    (by norm_num [monkeyCost])
  have s2 := spawnAllocStep_spec (spawnAllocStep ([], a + 1 / 10000) MonkeyType.big)
    MonkeyType.medium s1.2.2 (by norm_num [monkeyCost])
  have s3 := spawnAllocStep_spec
    (spawnAllocStep (spawnAllocStep ([], a + 1 / 10000) MonkeyType.big) MonkeyType.medium)
    MonkeyType.small s2.2.2 (by norm_num [monkeyCost])
  have hcalc : calculateMonkeySpawn a =
      (spawnAllocStep (spawnAllocStep (spawnAllocStep ([], a + 1 / 10000) MonkeyType.big)
        MonkeyType.medium) MonkeyType.small).1 := rfl
  rw [hcalc, s3.1, s2.1, s1.1, s2.2.1, s1.2.1]
  set r := a + 1 / 10000 with hrdef
  set c1 : ℤ := ⌊r / monkeyCost MonkeyType.big⌋ with hc1
  set c2 : ℤ := ⌊(r - (c1 : ℚ) * monkeyCost MonkeyType.big) / monkeyCost MonkeyType.medium⌋
    with hc2
  have hcost : monkeyCost MonkeyType.big = 10 ∧ monkeyCost MonkeyType.medium = 1 ∧
      monkeyCost MonkeyType.small = 1 / 10 := by
    refine ⟨rfl, rfl, rfl⟩
  have harg :
      (r - (c1 : ℚ) * monkeyCost MonkeyType.big -
        (c2 : ℚ) * monkeyCost MonkeyType.medium) / monkeyCost MonkeyType.small =
      r * 10 - ((100 * c1 + 10 * c2 : ℤ) : ℚ) := by
    rw [hcost.1, hcost.2.1, hcost.2.2]
    push_cast
    ring
  have hc3 :
      ⌊(r - (c1 : ℚ) * monkeyCost MonkeyType.big -
        (c2 : ℚ) * monkeyCost MonkeyType.medium) / monkeyCost MonkeyType.small⌋ =
      ⌊r * 10⌋ - (100 * c1 + 10 * c2) := by
    rw [harg, Int.floor_sub_int]
  rw [hc3, hcost.1, hcost.2.1, hcost.2.2]
  have : ⌊r * 10⌋ = ⌊(a + 1 / 10000) * 10⌋ := by rw [hrdef]
  rw [this.symm]
  simp [allocTotalCost]
  ring

theorem alGet_alSet_self {α : Type} (l : List (String × α)) (k : String) (v : α) :
    alGet (alSet l k v) k = some v := by
  induction l with
  | nil => simp [alGet, alSet, List.find?]
  | cons e t ih =>
    by_cases h : e.1 = k
    · simp [alSet, alGet, h, List.find?]
    · simp only [alSet]
      rw [if_neg h]
      simpa [alGet, List.find?, h] using ih

theorem alGet_not_mem_keys {α : Type} (l : List (String × α)) (k : String)
    (h : k ∉ l.map Prod.fst) : alGet l k = none := by
  induction l with
  | nil => rfl
  | cons e t ih =>
    simp only [List.map_cons, List.mem_cons] at h
    push_neg at h
    have h1 : e.1 ≠ k := fun hk => h.1 hk.symm
    simp only [alGet, List.find?]
    rw [show (decide (e.1 = k)) = false by simp [h1]]
    exact ih h.2

theorem alGet_mem {α : Type} (l : List (String × α)) (k : String) (v : α)
    (h : alGet l k = some v) : (k, v) ∈ l := by
  unfold alGet at h
  cases hfind : l.find? (fun p => p.1 = k) with
  | none => rw [hfind] at h; simp at h
  | some pair =>
    rw [hfind] at h
    simp at h
    have hk : pair.1 = k := by simpa using List.find?_some hfind
    have hmem : pair ∈ l := List.mem_of_find?_eq_some hfind
    have : (k, v) = pair := by
      cases pair
      simp_all
    rw [this]
    exact hmem

theorem alGet_alDelete_self {α : Type} (l : List (String × α)) (k : String)
    (h : (l.map Prod.fst).Nodup) : alGet (alDelete l k) k = none := by
  induction l with
  | nil => rfl
  | cons e t ih =>
    simp only [List.map_cons, List.nodup_cons] at h
    by_cases hk : e.1 = k
    · simp only [alDelete]
      rw [if_pos hk]
      exact alGet_not_mem_keys t k (hk ▸ h.1)
    · simp only [alDelete]
      rw [if_neg hk]
      simp only [alGet, List.find?]
      rw [show (decide (e.1 = k)) = false by simp [hk]]
      exact ih h.2

-- List helpers for the tick-engine proofs.

theorem list_set_same {α : Type} :
    ∀ (l : List α) (n : ℕ) (a : α), l.get? n = some a → l.set n a = l
  | [], _, _, h => by simp at h
  | x :: t, 0, a, h => by
    have hx : a = x := (Option.some.inj (show some x = some a from h)).symm
    simp [List.set, hx]
  | x :: t, n + 1, a, h => by
    have ht : t.get? n = some a := h
    simp [List.set, list_set_same t n a ht]

theorem list_map_set {α β : Type} (f : α → β) :
    ∀ (l : List α) (n : ℕ) (v : α), (l.set n v).map f = (l.map f).set n (f v)
  | [], _, _ => rfl
  | x :: t, 0, v => rfl
  | x :: t, n + 1, v => by simp [List.set, list_map_set f t n v]

theorem map_eq_of_set_proj {α β : Type} (f : α → β) (l : List α) (n : ℕ) (a v : α)
    (hget : l.get? n = some a) (hproj : f v = f a) : (l.set n v).map f = l.map f := by
  rw [list_map_set]
  have : (l.map f).get? n = some (f a) := by
    rw [List.get?_map, hget]
    rfl
  rw [hproj, list_set_same (l.map f) n (f a) this]

theorem countTeam_congr (l1 l2 : List Monkey) (t : String)
    (h : l1.map (fun m => m.teamId) = l2.map (fun m => m.teamId)) :
    countTeam l1 t = countTeam l2 t := by
  induction l1 generalizing l2 with
  | nil =>
    cases l2 with
    | nil => rfl
    | cons b t2 => simp at h
  | cons a t1 ih =>
    cases l2 with
    | nil => simp at h
    | cons b t2 =>
      simp at h
      by_cases hm : a.teamId = t
      · simp [countTeam, List.filter, hm, h.1 ▸ hm]
        have := ih t2 h.2
        simpa [countTeam] using this
      · have hb : ¬ b.teamId = t := h.1 ▸ hm
        simp [countTeam, List.filter, hm, hb]
        have := ih t2 h.2
        simpa [countTeam] using this

theorem countTeam_append (l1 l2 : List Monkey) (t : String) :
    countTeam (l1 ++ l2) t = countTeam l1 t + countTeam l2 t := by
  simp [countTeam, List.filter_append]

theorem countTeam_eq_zero (l : List Monkey) (t : String)
    (h : ∀ m ∈ l, m.teamId ≠ t) : countTeam l t = 0 := by
  simp only [countTeam, List.length_eq_zero, List.filter_eq_nil]
  intro m hm
  simpa using h m hm

theorem countTeam_cons (m : Monkey) (rest : List Monkey) (t : String) :
    countTeam (m :: rest) t = countTeam rest t + (if m.teamId = t then 1 else 0) := by
  by_cases h : m.teamId = t <;> simp [countTeam, List.filter, h]

theorem countTeam_partition (l : List Monkey) (t : String) :
    countTeam l t =
      countTeam (l.filter (fun m => 0 < m.hp)) t +
      countTeam (l.filter (fun m => m.hp ≤ 0)) t := by
  induction l with
  | nil => rfl
  | cons m rest ih =>
    rw [countTeam_cons]
    by_cases hhp : 0 < m.hp
    · rw [List.filter_cons_of_pos (by simpa using hhp),
        List.filter_cons_of_neg (by simpa using not_le.mpr hhp), countTeam_cons]
      omega
    · rw [List.filter_cons_of_neg (by simpa using hhp),
        List.filter_cons_of_pos (by simpa using not_lt.mp hhp), countTeam_cons]
      omega

theorem countTeam_filter_live (l : List Monkey) (t : String)
    (h : ∀ m ∈ l, 0 < m.hp) : countLiveTeam l t = (countTeam l t : ℤ) := by
  unfold countLiveTeam countTeam
  congr 2
  apply List.filter_congr
  intro m hm
  simp [h m hm]

theorem getMonkeyStats_maxHp_pos (mt : MonkeyType) : 0 < (getMonkeyStats mt).maxHp := by
  cases mt <;> norm_num [getMonkeyStats, BASE_HP]

theorem getMonkeyStats_damage_nonneg (mt : MonkeyType) : 0 ≤ (getMonkeyStats mt).damage := by
  cases mt <;> norm_num [getMonkeyStats, BASE_ATTACK_DAMAGE]

theorem map_comp_proj {α : Type} (f : Monkey → α) (g : Monkey → Monkey)
    (h : ∀ m, f (g m) = f m) (l : List Monkey) : (l.map g).map f = l.map f := by
  rw [List.map_map]
  apply List.map_congr_left
  intro m _
  exact h m

theorem map_eq_of_pointwise {β : Type} (f : Monkey → β) (l1 l2 : List Monkey)
    (hsome : ∀ i, (l1.get? i).isSome = (l2.get? i).isSome)
    (hf : ∀ i m m', l2.get? i = some m → l1.get? i = some m' → f m' = f m) :
    l1.map f = l2.map f := by
  apply List.ext_get?
  intro n
  rw [List.get?_map, List.get?_map]
  cases h2 : l2.get? n with
  | none =>
    have h := hsome n
    rw [h2] at h
    cases h1 : l1.get? n with
    | none => rfl
    | some m' => rw [h1] at h; simp at h
  | some m =>
    have h := hsome n
    rw [h2] at h
    cases h1 : l1.get? n with
    | none => rw [h1] at h; simp at h
    | some m' => simp [hf n m m' h2 h1]

theorem stepAllGo_length (monkeys : List Monkey) (bananas : List Banana) (dt now : ℚ)
    (cfg : GameConfig) (fe : Bool) (stepR : ℕ → StepRand) :
    ∀ (l : List Monkey) (i : ℕ),
      (stepAllGo monkeys bananas dt now cfg fe stepR l i).length = l.length
  | [], _ => rfl
  | self :: rest, i => by
    simp [stepAllGo, stepAllGo_length monkeys bananas dt now cfg fe stepR rest (i + 1)]

theorem stepAllGo_get (monkeys : List Monkey) (bananas : List Banana) (dt now : ℚ)
    (cfg : GameConfig) (fe : Bool) (stepR : ℕ → StepRand) :
    ∀ (l : List Monkey) (i n : ℕ),
      (stepAllGo monkeys bananas dt now cfg fe stepR l i).get? n =
        (l.get? n).map (fun self => stepMonkey monkeys bananas dt now cfg fe (stepR (i + n)) self)
  | [], _, _ => rfl
  | self :: rest, i, 0 => rfl
  | self :: rest, i, n + 1 => by
    have h := stepAllGo_get monkeys bananas dt now cfg fe stepR rest (i + 1) n
    simp only [stepAllGo, List.get?]
    rw [h]
    have : i + 1 + n = i + (n + 1) := by omega
    rw [this]

theorem stepAllGo_map {α : Type} (monkeys : List Monkey) (bananas : List Banana)
    (dt now : ℚ) (cfg : GameConfig) (fe : Bool) (stepR : ℕ → StepRand)
    (f : Monkey → α)
    (hf : ∀ r self, f (stepMonkey monkeys bananas dt now cfg fe r self) = f self) :
    ∀ (l : List Monkey) (i : ℕ),
      (stepAllGo monkeys bananas dt now cfg fe stepR l i).map f = l.map f
  | [], _ => rfl
  | self :: rest, i => by
    simp only [stepAllGo, List.map_cons]
    rw [hf, stepAllGo_map monkeys bananas dt now cfg fe stepR f hf rest (i + 1)]

theorem list_set_none {α : Type} :
    ∀ (l : List α) (n : ℕ) (v : α), l.get? n = none → l.set n v = l
  | [], _, _, _ => rfl
  | x :: t, 0, v, h => by simp at h
  | x :: t, n + 1, v, h => by
    have ht : t.get? n = none := h
    simp [List.set, list_set_none t n v ht]

theorem clearTargetAt_map_static (l : List Monkey) (i : ℕ) :
    (clearTargetAt l i).map staticProj = l.map staticProj := by
  unfold clearTargetAt
  cases ha : l.get? i with
  | none => rfl
  | some a2 =>
    exact map_eq_of_set_proj staticProj l i a2 { a2 with targetId := none } ha rfl

theorem damageTryHit_map_static (l : List Monkey) (attacker : Monkey) (j : ℕ)
    (victim : Monkey) (h : l.get? j = some victim) :
    (damageTryHit l attacker j victim).map staticProj = l.map staticProj := by
  unfold damageTryHit
  by_cases hdist : hypotQ (victim.position.x - attacker.position.x)
      (victim.position.y - attacker.position.y) ≤ ATTACK_RANGE
  · rw [if_pos hdist]
    exact map_eq_of_set_proj staticProj l j victim _ h rfl
  · rw [if_neg hdist]

theorem damageStep_map_static (l : List Monkey) (i : ℕ) :
    (damageStep l i).map staticProj = l.map staticProj := by
  unfold damageStep
  split
  · rfl
  · split
    · rfl
    · split
      · rfl
      · split
        · rfl
        · split
          · rfl
          · rename_i f1 attacker heq1 x1 tid heq2 x2 j heq3 f2 victim hvj hteam
            rw [clearTargetAt_map_static, damageTryHit_map_static l attacker j victim hvj]

theorem damagePass_go_map_static :
    ∀ (idxs : List ℕ) (l : List Monkey),
      ((idxs.foldl damageStep l).map staticProj) = l.map staticProj
  | [], _ => rfl
  | i :: rest, l => by
    simp only [List.foldl_cons]
    rw [damagePass_go_map_static rest (damageStep l i), damageStep_map_static]

theorem damagePass_map_static (l : List Monkey) :
    (damagePass l).map staticProj = l.map staticProj :=
  damagePass_go_map_static (List.range l.length) l

theorem damagePass_length (l : List Monkey) : (damagePass l).length = l.length := by
  have h := congrArg List.length (damagePass_map_static l)
  simpa using h

theorem stepDamagePhase_map_static (w : World) (dt now : ℚ) (cfg : GameConfig)
    (fe : Bool) (stepR : ℕ → StepRand) :
    (stepDamagePhase w dt now cfg fe stepR).map staticProj = w.monkeys.map staticProj := by
  unfold stepDamagePhase
  cases fe with
  | true =>
    simp only [Bool.true_eq_false, if_true]
    rw [damagePass_map_static]
    rw [stepAllGo_map _ _ _ _ _ _ _ staticProj (fun r self => rfl)]
    exact map_comp_proj staticProj resetMonkey (fun m => rfl) w.monkeys
  | false =>
    simp only [Bool.false_eq_true, if_false]
    rw [map_comp_proj staticProj (fun m => { m with targetId := none }) (fun m => rfl)]
    rw [stepAllGo_map _ _ _ _ _ _ _ staticProj (fun r self => rfl)]
    exact map_comp_proj staticProj resetMonkey (fun m => rfl) w.monkeys

theorem stepDamagePhase_length (w : World) (dt now : ℚ) (cfg : GameConfig)
    (fe : Bool) (stepR : ℕ → StepRand) :
    (stepDamagePhase w dt now cfg fe stepR).length = w.monkeys.length := by
  have h := congrArg List.length (stepDamagePhase_map_static w dt now cfg fe stepR)
  simpa using h

theorem staticProj_teamId {m m' : Monkey} (h : staticProj m' = staticProj m) :
    m'.teamId = m.teamId := by
  have := congrArg (fun p => p.2.1) h
  simpa [staticProj] using this

theorem staticProj_maxHp {m m' : Monkey} (h : staticProj m' = staticProj m) :
    m'.maxHp = m.maxHp := by
  have := congrArg (fun p => p.2.2.1) h
  simpa [staticProj] using this

theorem map_teamId_of_map_static (l1 l2 : List Monkey)
    (h : l1.map staticProj = l2.map staticProj) :
    l1.map (fun m => m.teamId) = l2.map (fun m => m.teamId) := by
  apply map_eq_of_pointwise
  · intro i
    have h1 := congrArg (fun l => (List.get? l i).isSome) h
    simpa using h1
  · intro i m m' h2 h1
    have hs := congrArg (fun l => List.get? l i) h
    simp only [List.get?_map, h1, h2, Option.map_some'] at hs
    exact staticProj_teamId (Option.some.inj hs)

theorem collectGo_length : ∀ (ms : List Monkey) (bs : List Banana),
    (collectGo ms bs).1.length = ms.length
  | [], _ => rfl
  | m :: rest, bs => by
    cases hcc : canCollectBanana m with
    | false => simp [collectGo, hcc, collectGo_length rest bs]
    | true =>
      cases hidx : firstBananaIdx m bs with
      | none => simp [collectGo, hcc, hidx, collectGo_length rest bs]
      | some i0 =>
        cases hb : bs.get? i0 with
        | none =>
          have hb2 : bs[i0]? = none := by rw [← List.get?_eq_getElem?]; exact hb
          simp [collectGo, hcc, hidx, hb2, collectGo_length rest bs]
        | some b =>
          have hb2 : bs[i0]? = some b := by rw [← List.get?_eq_getElem?]; exact hb
          simp [collectGo, hcc, hidx, hb2, collectGo_length rest (bs.eraseIdx i0)]

theorem collectGo_bananas_sub : ∀ (ms : List Monkey) (bs : List Banana),
    ∀ b ∈ (collectGo ms bs).2, b ∈ bs
  | [], _ => by intro b hb; simpa [collectGo] using hb
  | m :: rest, bs => by
    intro b hb
    cases hcc : canCollectBanana m with
    | false =>
      simp only [collectGo, hcc, Bool.false_eq_true, if_false] at hb
      exact collectGo_bananas_sub rest bs b hb
    | true =>
      cases hidx : firstBananaIdx m bs with
      | none =>
        simp only [collectGo, hcc, if_true, hidx] at hb
        exact collectGo_bananas_sub rest bs b hb
      | some i0 =>
        cases hbi : bs.get? i0 with
        | none =>
          simp only [collectGo, hcc, if_true, hidx, hbi] at hb
          exact collectGo_bananas_sub rest bs b hb
        | some b0 =>
          simp only [collectGo, hcc, if_true, hidx, hbi] at hb
          have hsub := collectGo_bananas_sub rest (bs.eraseIdx i0) b hb
          exact (List.eraseIdx_sublist bs i0).subset hsub

theorem collectGo_get : ∀ (ms : List Monkey) (bs : List Banana) (i : ℕ),
    ((collectGo ms bs).1.get? i).isSome = (ms.get? i).isSome ∧
    (∀ m m', ms.get? i = some m → (collectGo ms bs).1.get? i = some m' →
      staticProj m' = staticProj m ∧ m'.targetId = m.targetId ∧
      (m'.hp = m.hp ∨ ∃ b ∈ bs, m.hp < m.maxHp ∧
        m'.hp = applyHealHp m.maxHp m.hp ((⌊m.maxHp * b.healAmount⌋ : ℤ) : ℚ)))
  | [], bs, i => by simp [collectGo]
  | m :: rest, bs, i => by
    cases hcc : canCollectBanana m with
    | false =>
      have hbody : (collectGo (m :: rest) bs) =
          (m :: (collectGo rest bs).1, (collectGo rest bs).2) := by
        simp [collectGo, hcc]
      rw [hbody]
      cases i with
      | zero =>
        refine ⟨rfl, ?_⟩
        intro m1 m1' h2 h1
        have e2 : m1 = m := by simpa using h2.symm
        have e1 : m1' = m := by simpa using h1.symm
        subst e2
        subst e1
        exact ⟨rfl, rfl, Or.inl rfl⟩
      | succ n =>
        have ih := collectGo_get rest bs n
        exact ⟨ih.1, fun m1 m1' h2 h1 => ih.2 m1 m1' h2 h1⟩
    | true =>
      cases hidx : firstBananaIdx m bs with
      | none =>
        have hbody : (collectGo (m :: rest) bs) =
            (m :: (collectGo rest bs).1, (collectGo rest bs).2) := by
          simp [collectGo, hcc, hidx]
        rw [hbody]
        cases i with
        | zero =>
          refine ⟨rfl, ?_⟩
          intro m1 m1' h2 h1
          have e2 : m1 = m := by simpa using h2.symm
          have e1 : m1' = m := by simpa using h1.symm
          subst e2
          subst e1
          exact ⟨rfl, rfl, Or.inl rfl⟩
        | succ n =>
          have ih := collectGo_get rest bs n
          exact ⟨ih.1, fun m1 m1' h2 h1 => ih.2 m1 m1' h2 h1⟩
      | some i0 =>
        cases hbi : bs.get? i0 with
        | none =>
          have hb2 : bs[i0]? = none := by rw [← List.get?_eq_getElem?]; exact hbi
          have hbody : (collectGo (m :: rest) bs) =
              (m :: (collectGo rest bs).1, (collectGo rest bs).2) := by
            simp [collectGo, hcc, hidx, hb2]
          rw [hbody]
          cases i with
          | zero =>
            refine ⟨rfl, ?_⟩
            intro m1 m1' h2 h1
            have e2 : m1 = m := by simpa using h2.symm
            have e1 : m1' = m := by simpa using h1.symm
            subst e2
            subst e1
            exact ⟨rfl, rfl, Or.inl rfl⟩
          | succ n =>
            have ih := collectGo_get rest bs n
            exact ⟨ih.1, fun m1 m1' h2 h1 => ih.2 m1 m1' h2 h1⟩
        | some b =>
          have hb2 : bs[i0]? = some b := by rw [← List.get?_eq_getElem?]; exact hbi
          have hbody : (collectGo (m :: rest) bs) =
              ({ m with hp := applyHealHp m.maxHp m.hp ((⌊m.maxHp * b.healAmount⌋ : ℤ) : ℚ) } :: (collectGo rest (bs.eraseIdx i0)).1, (collectGo rest (bs.eraseIdx i0)).2) := by
            simp [collectGo, hcc, hidx, hb2]
          rw [hbody]
          cases i with
          | zero =>
            refine ⟨rfl, ?_⟩
            intro m1 m1' h2 h1
            have e2 : m1 = m := by simpa using h2.symm
            have e1 : m1' = { m with hp := applyHealHp m.maxHp m.hp ((⌊m.maxHp * b.healAmount⌋ : ℤ) : ℚ) } := by simpa using h1.symm
            subst e2
            subst e1
            refine ⟨rfl, rfl, Or.inr ⟨b, List.get?_mem hbi, ?_, rfl⟩⟩
            have := of_decide_eq_true hcc
            simpa [canCollectBanana] using hcc
          | succ n =>
            have ih := collectGo_get rest (bs.eraseIdx i0) n
            refine ⟨ih.1, ?_⟩
            intro m1 m1' h2 h1
            have h3 := ih.2 m1 m1' h2 h1
            refine ⟨h3.1, h3.2.1, ?_⟩
            rcases h3.2.2 with h4 | ⟨b2, hb2, h5, h6⟩
            · exact Or.inl h4
            · exact Or.inr ⟨b2, (List.eraseIdx_sublist bs i0).subset hb2, h5, h6⟩

theorem collectGo_map_static (ms : List Monkey) (bs : List Banana) :
    (collectGo ms bs).1.map staticProj = ms.map staticProj :=
  map_eq_of_pointwise staticProj _ ms (fun i => (collectGo_get ms bs i).1)
    (fun i m m' h2 h1 => ((collectGo_get ms bs i).2 m m' h2 h1).1)

theorem collectGo_hp_pos (ms : List Monkey) (bs : List Banana)
    (hbs : ∀ b ∈ bs, 0 ≤ b.healAmount) (hms : ∀ m ∈ ms, 0 < m.hp) :
    ∀ m' ∈ (collectGo ms bs).1, 0 < m'.hp := by
  intro m' hm'
  rcases List.mem_iff_get?.mp hm' with ⟨i, hi⟩
  have hsome := (collectGo_get ms bs i).1
  rw [hi] at hsome
  cases hmi : ms.get? i with
  | none => rw [hmi] at hsome; simp at hsome
  | some m =>
    have h3 := (collectGo_get ms bs i).2 m m' hmi hi
    have hmpos : 0 < m.hp := hms m (List.get?_mem hmi)
    rcases h3.2.2 with h4 | ⟨b, hb, h5, h6⟩
    · rw [h4]; exact hmpos
    · have hmaxpos : 0 < m.maxHp := lt_trans hmpos h5
      have hheal : (0 : ℚ) ≤ ((⌊m.maxHp * b.healAmount⌋ : ℤ) : ℚ) := by
        have : (0 : ℤ) ≤ ⌊m.maxHp * b.healAmount⌋ :=
          Int.floor_nonneg.mpr (mul_nonneg (le_of_lt hmaxpos) (hbs b hb))
        exact_mod_cast this
      rw [h6]
      unfold applyHealHp
      exact lt_min hmaxpos (by linarith)

theorem collectGo_hp_mono (ms : List Monkey) (bs : List Banana)
    (hbs : ∀ b ∈ bs, 0 ≤ b.healAmount)
    (hms : ∀ m ∈ ms, 0 < m.hp ∧ m.hp ≤ m.maxHp) :
    ∀ i m m', ms.get? i = some m → (collectGo ms bs).1.get? i = some m' →
      m.hp ≤ m'.hp := by
  intro i m m' h2 h1
  have h3 := (collectGo_get ms bs i).2 m m' h2 h1
  rcases h3.2.2 with h4 | ⟨b, hb, h5, h6⟩
  · rw [h4]
  · have hm := hms m (List.get?_mem h2)
    have hmaxpos : 0 < m.maxHp := lt_trans hm.1 h5
    have hheal : (0 : ℚ) ≤ ((⌊m.maxHp * b.healAmount⌋ : ℤ) : ℚ) := by
      have : (0 : ℤ) ≤ ⌊m.maxHp * b.healAmount⌋ :=
        Int.floor_nonneg.mpr (mul_nonneg (le_of_lt hmaxpos) (hbs b hb))
      exact_mod_cast this
    rw [h6]
    unfold applyHealHp
    exact le_min hm.2 (by linarith)

theorem collectGo_targetId (ms : List Monkey) (bs : List Banana) :
    ∀ i m m', ms.get? i = some m → (collectGo ms bs).1.get? i = some m' →
      m'.targetId = m.targetId :=
  fun i m m' h2 h1 => ((collectGo_get ms bs i).2 m m' h2 h1).2.1

theorem alGet_cons {α : Type} (e : String × α) (l : List (String × α)) (t : String) :
    alGet (e :: l) t = if e.1 = t then some e.2 else alGet l t := by
  by_cases h : e.1 = t <;> simp [alGet, List.find?, h]

theorem alUpdate_keys {α : Type} (k : String) (f : α → α) :
    ∀ (l : List (String × α)), (alUpdate l k f).map Prod.fst = l.map Prod.fst
  | [] => rfl
  | e :: t => by
    by_cases h : e.1 = k
    · simp [alUpdate, h]
    · simp [alUpdate, h, alUpdate_keys k f t]

theorem alGet_alUpdate {α : Type} (k t : String) (f : α → α) :
    ∀ (l : List (String × α)),
      alGet (alUpdate l k f) t = if t = k then (alGet l t).map f else alGet l t
  | [] => by by_cases h : t = k <;> simp [alUpdate, alGet, h]
  | e :: l => by
    by_cases hek : e.1 = k
    · by_cases het : e.1 = t
      · have htk : t = k := het ▸ hek
        simp only [alUpdate, if_pos hek]
        rw [alGet_cons, alGet_cons]
        simp [het, htk]
      · have htk : ¬ t = k := fun h => het (hek.trans h.symm)
        simp only [alUpdate, if_pos hek]
        rw [alGet_cons, if_neg htk, alGet_cons]
        simp [het]
    · by_cases het : e.1 = t
      · have htk : ¬ t = k := fun h => hek (het.trans h)
        simp only [alUpdate, if_neg hek]
        rw [alGet_cons, if_neg htk, alGet_cons]
        simp [het]
      · simp only [alUpdate, if_neg hek]
        rw [alGet_cons]
        rw [if_neg het]
        rw [alGet_alUpdate k t f l]
        by_cases htk : t = k
        · rw [if_pos htk, if_pos htk, alGet_cons, if_neg het]
        · rw [if_neg htk, if_neg htk, alGet_cons, if_neg het]

theorem alGet_isSome_iff {α : Type} (t : String) :
    ∀ (l : List (String × α)), (alGet l t).isSome ↔ t ∈ l.map Prod.fst
  | [] => by simp [alGet]
  | e :: l => by
    rw [alGet_cons]
    by_cases h : e.1 = t
    · simp [h]
    · simp only [if_neg h, List.map_cons, List.mem_cons]
      rw [alGet_isSome_iff t l]
      constructor
      · exact Or.inr
      · rintro (h1 | h1)
        · exact absurd h1.symm h
        · exact h1

theorem deadFoldStep_get (acc : List (String × TeamStats)) (dm : Monkey) (t : String) :
    ((deadFoldStep acc dm).map Prod.fst = acc.map Prod.fst) ∧
    (∀ s', alGet (deadFoldStep acc dm) t = some s' →
      ∃ s, alGet acc t = some s ∧ s'.spawned = s.spawned ∧ s'.reserves = s.reserves ∧
        s'.monkeyType = s.monkeyType ∧
        s'.dead = s.dead + (if dm.teamId = t then 1 else 0)) := by
  unfold deadFoldStep
  split
  · rename_i k hk
    constructor
    · rw [alUpdate_keys, alUpdate_keys]
    · intro s' hs'
      rw [alGet_alUpdate] at hs'
      by_cases htk : t = k
      · rw [if_pos htk] at hs'
        cases h1 : alGet (alUpdate acc dm.teamId
            (fun s => { s with alive := max 0 (s.alive - 1), dead := s.dead + 1 })) t with
        | none => rw [h1] at hs'; simp at hs'
        | some s1 =>
          rw [h1] at hs'
          simp at hs'
          rw [alGet_alUpdate] at h1
          by_cases htd : t = dm.teamId
          · rw [if_pos htd] at h1
            cases h2 : alGet acc t with
            | none => rw [h2] at h1; simp at h1
            | some s0 =>
              rw [h2] at h1
              simp at h1
              refine ⟨s0, rfl, ?_⟩
              rw [← hs', ← h1]
              simp [htd.symm]
          · rw [if_neg htd] at h1
            refine ⟨s1, h1, ?_⟩
            rw [← hs']
            have : ¬ dm.teamId = t := fun h => htd h.symm
            simp [this]
      · rw [if_neg htk] at hs'
        rw [alGet_alUpdate] at hs'
        by_cases htd : t = dm.teamId
        · rw [if_pos htd] at hs'
          cases h2 : alGet acc t with
          | none => rw [h2] at hs'; simp at hs'
          | some s0 =>
            rw [h2] at hs'
            simp at hs'
            refine ⟨s0, rfl, ?_⟩
            rw [← hs']
            simp [htd.symm]
        · rw [if_neg htd] at hs'
          refine ⟨s', hs', rfl, rfl, rfl, ?_⟩
          have : ¬ dm.teamId = t := fun h => htd h.symm
          simp [this]
  · constructor
    · rw [alUpdate_keys]
    · intro s' hs'
      rw [alGet_alUpdate] at hs'
      by_cases htd : t = dm.teamId
      · rw [if_pos htd] at hs'
        cases h2 : alGet acc t with
        | none => rw [h2] at hs'; simp at hs'
        | some s0 =>
          rw [h2] at hs'
          simp at hs'
          refine ⟨s0, rfl, ?_⟩
          rw [← hs']
          simp [htd.symm]
      · rw [if_neg htd] at hs'
        refine ⟨s', hs', rfl, rfl, rfl, ?_⟩
        have : ¬ dm.teamId = t := fun h => htd h.symm
        simp [this]

theorem deadFold_spec : ∀ (dl : List Monkey) (acc : List (String × TeamStats)) (t : String),
    ((dl.foldl deadFoldStep acc).map Prod.fst = acc.map Prod.fst) ∧
    (∀ s', alGet (dl.foldl deadFoldStep acc) t = some s' →
      ∃ s, alGet acc t = some s ∧ s'.spawned = s.spawned ∧ s'.reserves = s.reserves ∧
        s'.monkeyType = s.monkeyType ∧ s'.dead = s.dead + (countTeam dl t : ℤ))
  | [], acc, t => by
    refine ⟨rfl, ?_⟩
    intro s' hs'
    exact ⟨s', hs', rfl, rfl, rfl, by simp [countTeam]⟩
  | dm :: rest, acc, t => by
    have hstep := deadFoldStep_get acc dm t
    have ih := deadFold_spec rest (deadFoldStep acc dm) t
    constructor
    · simp only [List.foldl_cons]
      rw [ih.1, hstep.1]
    · intro s' hs'
      simp only [List.foldl_cons] at hs'
      rcases ih.2 s' hs' with ⟨s1, h1, e1, e2, e3, e4⟩
      rcases hstep.2 s1 h1 with ⟨s0, h0, f1, f2, f3, f4⟩
      refine ⟨s0, h0, e1.trans f1, e2.trans f2, e3.trans f3, ?_⟩
      rw [e4, f4, countTeam_cons]
      by_cases hdt : dm.teamId = t
      · rw [if_pos hdt, if_pos hdt]
        push_cast
        ring
      · rw [if_neg hdt, if_neg hdt]
        push_cast
        ring

theorem alGet_alive_overwrite (cnt : String → ℤ) (t : String) :
    ∀ (l : List (String × TeamStats)),
      alGet (l.map (fun p => (p.1, { p.2 with alive := cnt p.1 }))) t =
        (alGet l t).map (fun s => { s with alive := cnt t })
  | [] => rfl
  | e :: l => by
    simp only [List.map_cons]
    rw [alGet_cons, alGet_cons]
    by_cases h : e.1 = t
    · simp [h]
    · simp only [if_neg h]
      exact alGet_alive_overwrite cnt t l

theorem step_count_partition (w : World) (dt now : ℚ) (cfg : GameConfig)
    (fe : Bool) (stepR : ℕ → StepRand) (t : String) :
    countTeam (stepAliveList w dt now cfg fe stepR) t +
      countTeam (stepDeadList w dt now cfg fe stepR) t = countTeam w.monkeys t := by
  have hmap := stepDamagePhase_map_static w dt now cfg fe stepR
  have hcnt := countTeam_congr (stepDamagePhase w dt now cfg fe stepR) w.monkeys t
    (map_teamId_of_map_static _ _ hmap)
  rw [← hcnt, countTeam_partition (stepDamagePhase w dt now cfg fe stepR) t]
  rfl

theorem stepWorldReconciled_spec (w : World) (dt now : ℚ) (cfg : GameConfig)
    (fe : Bool) (stepR : ℕ → StepRand) :
    ((stepWorldReconciled w dt now cfg fe stepR).teamPools = w.teamPools) ∧
    ((stepWorldReconciled w dt now cfg fe stepR).bananas = w.bananas) ∧
    ((stepWorldReconciled w dt now cfg fe stepR).monkeys =
      stepAliveList w dt now cfg fe stepR) ∧
    ((stepWorldReconciled w dt now cfg fe stepR).teamStats.map Prod.fst =
      w.teamStats.map Prod.fst) ∧
    (∀ t s', alGet (stepWorldReconciled w dt now cfg fe stepR).teamStats t = some s' →
      s'.alive = (countTeam (stepAliveList w dt now cfg fe stepR) t : ℤ) ∧
      ∃ s, alGet w.teamStats t = some s ∧ s'.spawned = s.spawned ∧
        s'.reserves = s.reserves ∧ s'.monkeyType = s.monkeyType ∧
        s'.dead = s.dead + (countTeam (stepDeadList w dt now cfg fe stepR) t : ℤ)) := by
  refine ⟨rfl, rfl, rfl, ?_, ?_⟩
  · show ((((stepDeadList w dt now cfg fe stepR).foldl deadFoldStep w.teamStats).map
      (fun p => (p.1, { p.2 with alive := (countTeam (stepAliveList w dt now cfg fe stepR) p.1 : ℤ) }))).map Prod.fst) = w.teamStats.map Prod.fst
    rw [List.map_map]
    have h1 : ∀ (l : List (String × TeamStats)),
        (l.map (Prod.fst ∘ (fun p => (p.1, { p.2 with alive := (countTeam (stepAliveList w dt now cfg fe stepR) p.1 : ℤ) })))) = l.map Prod.fst := by
      intro l
      apply List.map_congr_left
      intro p _
      rfl
    rw [h1]
    exact (deadFold_spec (stepDeadList w dt now cfg fe stepR) w.teamStats "").1
  · intro t s' hs'
    have hrec : alGet (stepWorldReconciled w dt now cfg fe stepR).teamStats t =
        (alGet ((stepDeadList w dt now cfg fe stepR).foldl deadFoldStep w.teamStats) t).map
          (fun s => { s with alive := ((fun k => (countTeam (stepAliveList w dt now cfg fe stepR) k : ℤ)) t) }) :=
      alGet_alive_overwrite (fun k => (countTeam (stepAliveList w dt now cfg fe stepR) k : ℤ)) t
        ((stepDeadList w dt now cfg fe stepR).foldl deadFoldStep w.teamStats)
    rw [hrec] at hs'
    cases h1 : alGet ((stepDeadList w dt now cfg fe stepR).foldl deadFoldStep w.teamStats) t with
    | none => rw [h1] at hs'; simp at hs'
    | some s1 =>
      rw [h1] at hs'
      simp at hs'
      rcases (deadFold_spec (stepDeadList w dt now cfg fe stepR) w.teamStats t).2 s1 h1 with
        ⟨s0, h0, e1, e2, e3, e4⟩
      refine ⟨by rw [← hs'], s0, h0, ?_, ?_, ?_, ?_⟩ <;> rw [← hs'] <;> simpa using (by assumption)

theorem mkSpawnedMonkey_hp (teamId : String) (mt : MonkeyType) (pos : Vector2)
    (r : MRand) : (mkSpawnedMonkey teamId mt pos r).hp = (getMonkeyStats mt).maxHp := rfl

theorem mkSpawnedMonkey_maxHp (teamId : String) (mt : MonkeyType) (pos : Vector2)
    (r : MRand) : (mkSpawnedMonkey teamId mt pos r).maxHp = (getMonkeyStats mt).maxHp := rfl

theorem mkSpawnedMonkey_teamId (teamId : String) (mt : MonkeyType) (pos : Vector2)
    (r : MRand) : (mkSpawnedMonkey teamId mt pos r).teamId = teamId := rfl

theorem mkSpawnedMonkey_targetId (teamId : String) (mt : MonkeyType) (pos : Vector2)
    (r : MRand) : (mkSpawnedMonkey teamId mt pos r).targetId = none := rfl

theorem batch_member (teamId : String) (mt : MonkeyType) (pos : Vector2)
    (d : ℕ → MRand) (n : ℕ) (m : Monkey)
    (h : m ∈ (List.range n).map (fun i => mkSpawnedMonkey teamId mt pos (d i))) :
    0 < m.hp ∧ 0 < m.maxHp ∧ m.targetId = none ∧ m.teamId = teamId := by
  rcases List.mem_map.mp h with ⟨i, _, hi⟩
  rw [← hi]
  exact ⟨getMonkeyStats_maxHp_pos mt, getMonkeyStats_maxHp_pos mt, rfl, rfl⟩

theorem countTeam_batch_self (teamId : String) (mt : MonkeyType) (pos : Vector2)
    (d : ℕ → MRand) (n : ℕ) :
    countTeam ((List.range n).map (fun i => mkSpawnedMonkey teamId mt pos (d i))) teamId = n := by
  unfold countTeam
  rw [List.filter_eq_self.mpr]
  · simp
  · intro m hm
    have := (batch_member teamId mt pos d n m hm).2.2.2
    simp [this]

theorem countTeam_batch_ne (teamId : String) (mt : MonkeyType) (pos : Vector2)
    (d : ℕ → MRand) (n : ℕ) (t : String) (h : teamId ≠ t) :
    countTeam ((List.range n).map (fun i => mkSpawnedMonkey teamId mt pos (d i))) t = 0 := by
  apply countTeam_eq_zero
  intro m hm
  rw [(batch_member teamId mt pos d n m hm).2.2.2]
  exact h

theorem reservesGo_spec (cfg : GameConfig) (avail : ℤ) (resR : ℕ → SpawnRand) :
    ∀ (entries : List (String × TeamStats)) (used : ℤ) (idx : ℕ),
      (entries.map Prod.fst).Nodup →
      (∀ e ∈ entries, 0 ≤ e.2.reserves) →
      ((reservesGo cfg avail resR entries used idx).1.map Prod.fst = entries.map Prod.fst) ∧
      (∀ m ∈ (reservesGo cfg avail resR entries used idx).2,
        0 < m.hp ∧ 0 < m.maxHp ∧ m.targetId = none ∧ m.teamId ∈ entries.map Prod.fst) ∧
      (((reservesGo cfg avail resR entries used idx).2.length : ℤ) ≤ max 0 (avail - used)) ∧
      (∀ t s', alGet (reservesGo cfg avail resR entries used idx).1 t = some s' →
        ∃ s, alGet entries t = some s ∧ s'.spawned = s.spawned ∧ s'.dead = s.dead ∧
          s'.alive = s.alive + (countTeam (reservesGo cfg avail resR entries used idx).2 t : ℤ) ∧
          s'.reserves = s.reserves - (countTeam (reservesGo cfg avail resR entries used idx).2 t : ℤ) ∧
          0 ≤ s'.reserves)
  | [], used, idx, hnd, hres => by
    refine ⟨rfl, by simp [reservesGo], by simp [reservesGo], ?_⟩
    intro t s' hs'
    simp [reservesGo, alGet] at hs'
  | e :: rest, used, idx, hnd, hres => by
    simp only [List.map_cons, List.nodup_cons] at hnd
    have hndr := hnd.2
    have hresr : ∀ p ∈ rest, 0 ≤ p.2.reserves := fun p hp => hres p (List.mem_cons_of_mem e hp)
    have hrese : 0 ≤ e.2.reserves := hres e (List.mem_cons_self e rest)
    by_cases hskip : e.2.reserves = 0 ∨ avail ≤ used
    · have ih := reservesGo_spec cfg avail resR rest used (idx + 1) hndr hresr
      have hbody : reservesGo cfg avail resR (e :: rest) used idx =
          (e :: (reservesGo cfg avail resR rest used (idx + 1)).1,
           (reservesGo cfg avail resR rest used (idx + 1)).2) := by
        rw [reservesGo]
        rw [if_pos hskip]
      rw [hbody]
      refine ⟨by simp [ih.1], ?_, ih.2.2.1, ?_⟩
      · intro m hm
        have h2 := ih.2.1 m hm
        exact ⟨h2.1, h2.2.1, h2.2.2.1, List.mem_cons_of_mem _ h2.2.2.2⟩
      · intro t s' hs'
        rw [alGet_cons] at hs'
        by_cases het : e.1 = t
        · rw [if_pos het] at hs'
          have hcnt : countTeam (reservesGo cfg avail resR rest used (idx + 1)).2 t = 0 := by
            apply countTeam_eq_zero
            intro m hm
            have h2 := (ih.2.1 m hm).2.2.2
            intro hct
            exact hnd.1 (by rw [het, ← hct]; exact h2)
          refine ⟨e.2, ?_, ?_⟩
          · rw [alGet_cons, if_pos het]
          · have hse : s' = e.2 := by simpa using hs'.symm
            subst hse
            rw [hcnt]
            refine ⟨rfl, rfl, by simp, by simp, hrese⟩
        · rw [if_neg het] at hs'
          rcases ih.2.2.2 t s' hs' with ⟨s, hsget, h1, h2, h3, h4, h5⟩
          refine ⟨s, ?_, h1, h2, h3, h4, h5⟩
          rw [alGet_cons, if_neg het]
          exact hsget
    · push_neg at hskip
      have hkpos : 0 < min e.2.reserves (avail - used) := by
        have h1 : 0 < e.2.reserves := lt_of_le_of_ne hrese (fun h => hskip.1 h.symm)
        have h2 : 0 < avail - used := by omega
        exact lt_min h1 h2
      have ih := reservesGo_spec cfg avail resR rest
        (used + min e.2.reserves (avail - used)) (idx + 1) hndr hresr
      have hbody : reservesGo cfg avail resR (e :: rest) used idx =
          ((e.1, { e.2 with reserves := e.2.reserves - min e.2.reserves (avail - used), alive := e.2.alive + min e.2.reserves (avail - used) }) :: (reservesGo cfg avail resR rest (used + min e.2.reserves (avail - used)) (idx + 1)).1,
           ((List.range (min e.2.reserves (avail - used)).toNat).map (fun i => mkSpawnedMonkey e.1 e.2.monkeyType ⟨(resR idx).px * (cfg.width - 100) + 50, (resR idx).py * (cfg.height - 100) + 50⟩ ((resR idx).draw i)) ++ (reservesGo cfg avail resR rest (used + min e.2.reserves (avail - used)) (idx + 1)).2)) := by
        rw [reservesGo]
        rw [if_neg (by push_neg; exact hskip)]
      rw [hbody]
      have hcast : ((min e.2.reserves (avail - used)).toNat : ℤ) =
          min e.2.reserves (avail - used) := Int.toNat_of_nonneg (le_of_lt hkpos)
      refine ⟨by simp [ih.1], ?_, ?_, ?_⟩
      · intro m hm
        rcases List.mem_append.mp hm with hm1 | hm2
        · have h2 := batch_member _ _ _ _ _ m hm1
          exact ⟨h2.1, h2.2.1, h2.2.2.1, by rw [h2.2.2.2]; exact List.mem_cons_self _ _⟩
        · have h2 := ih.2.1 m hm2
          exact ⟨h2.1, h2.2.1, h2.2.2.1, List.mem_cons_of_mem _ h2.2.2.2⟩
      · rw [List.length_append, List.length_map, List.length_range]
        have hlen := ih.2.2.1
        push_cast
        rw [hcast]
        omega
      · intro t s' hs'
        rw [alGet_cons] at hs'
        by_cases het : e.1 = t
        · rw [if_pos het] at hs'
          have hs2 : s' = { e.2 with reserves := e.2.reserves - min e.2.reserves (avail - used), alive := e.2.alive + min e.2.reserves (avail - used) } := by
            simpa using hs'.symm
          have hcnt0 : countTeam (reservesGo cfg avail resR rest (used + min e.2.reserves (avail - used)) (idx + 1)).2 t = 0 := by
            apply countTeam_eq_zero
            intro m hm
            have h2 := (ih.2.1 m hm).2.2.2
            intro hct
            exact hnd.1 (by rw [het, ← hct]; exact h2)
          have hcntb : countTeam ((List.range (min e.2.reserves (avail - used)).toNat).map (fun i => mkSpawnedMonkey e.1 e.2.monkeyType ⟨(resR idx).px * (cfg.width - 100) + 50, (resR idx).py * (cfg.height - 100) + 50⟩ ((resR idx).draw i))) t = (min e.2.reserves (avail - used)).toNat := by
            rw [← het]
            exact countTeam_batch_self _ _ _ _ _
          refine ⟨e.2, by rw [alGet_cons, if_pos het], ?_⟩
          subst hs2
          rw [countTeam_append, hcnt0, hcntb]
          refine ⟨rfl, rfl, ?_, ?_, ?_⟩
          · simp [hcast]
          · simp [hcast]
          · simp
        · rw [if_neg het] at hs'
          rcases ih.2.2.2 t s' hs' with ⟨s, hsget, h1, h2, h3, h4, h5⟩
          have hcntb : countTeam ((List.range (min e.2.reserves (avail - used)).toNat).map (fun i => mkSpawnedMonkey e.1 e.2.monkeyType ⟨(resR idx).px * (cfg.width - 100) + 50, (resR idx).py * (cfg.height - 100) + 50⟩ ((resR idx).draw i))) t = 0 :=
            countTeam_batch_ne _ _ _ _ _ _ het
          refine ⟨s, by rw [alGet_cons, if_neg het]; exact hsget, h1, h2, ?_, ?_, h5⟩
          · rw [countTeam_append, hcntb]
            simpa using h3
          · rw [countTeam_append, hcntb]
            simpa using h4

theorem spawnFromReservesQ_eq (w : World) (cfg : GameConfig) (resR : ℕ → SpawnRand) :
    spawnFromReservesQ w cfg resR =
      (if max 0 (cfg.maxMonkeys - (w.monkeys.length : ℤ)) = 0 then w
       else if (reservesGo cfg (max 0 (cfg.maxMonkeys - (w.monkeys.length : ℤ))) resR w.teamStats 0 0).2 = [] then w
       else { monkeys := w.monkeys ++ (reservesGo cfg (max 0 (cfg.maxMonkeys - (w.monkeys.length : ℤ))) resR w.teamStats 0 0).2,
              teamStats := (reservesGo cfg (max 0 (cfg.maxMonkeys - (w.monkeys.length : ℤ))) resR w.teamStats 0 0).1,
              teamPools := w.teamPools,
              bananas := w.bananas }) := rfl

theorem spawnFromReservesQ_spec (w : World) (cfg : GameConfig) (resR : ℕ → SpawnRand)
    (hkeys : (w.teamStats.map Prod.fst).Nodup)
    (hres : ∀ e ∈ w.teamStats, 0 ≤ e.2.reserves) :
    ∃ ms : List Monkey,
      (spawnFromReservesQ w cfg resR).monkeys = w.monkeys ++ ms ∧
      (spawnFromReservesQ w cfg resR).teamPools = w.teamPools ∧
      (spawnFromReservesQ w cfg resR).bananas = w.bananas ∧
      ((spawnFromReservesQ w cfg resR).teamStats.map Prod.fst = w.teamStats.map Prod.fst) ∧
      (∀ m ∈ ms, 0 < m.hp ∧ 0 < m.maxHp ∧ m.targetId = none ∧
        m.teamId ∈ w.teamStats.map Prod.fst) ∧
      (((w.monkeys.length : ℤ) + ms.length) ≤ max (w.monkeys.length : ℤ) cfg.maxMonkeys) ∧
      (∀ t s', alGet (spawnFromReservesQ w cfg resR).teamStats t = some s' →
        ∃ s, alGet w.teamStats t = some s ∧ s'.spawned = s.spawned ∧ s'.dead = s.dead ∧
          s'.alive = s.alive + (countTeam ms t : ℤ) ∧
          s'.reserves = s.reserves - (countTeam ms t : ℤ) ∧ 0 ≤ s'.reserves) := by
  have hid : ∀ hw : spawnFromReservesQ w cfg resR = w,
      ∃ ms : List Monkey,
        (spawnFromReservesQ w cfg resR).monkeys = w.monkeys ++ ms ∧
        (spawnFromReservesQ w cfg resR).teamPools = w.teamPools ∧
        (spawnFromReservesQ w cfg resR).bananas = w.bananas ∧
        ((spawnFromReservesQ w cfg resR).teamStats.map Prod.fst = w.teamStats.map Prod.fst) ∧
        (∀ m ∈ ms, 0 < m.hp ∧ 0 < m.maxHp ∧ m.targetId = none ∧
          m.teamId ∈ w.teamStats.map Prod.fst) ∧
        (((w.monkeys.length : ℤ) + ms.length) ≤ max (w.monkeys.length : ℤ) cfg.maxMonkeys) ∧
        (∀ t s', alGet (spawnFromReservesQ w cfg resR).teamStats t = some s' →
          ∃ s, alGet w.teamStats t = some s ∧ s'.spawned = s.spawned ∧ s'.dead = s.dead ∧
            s'.alive = s.alive + (countTeam ms t : ℤ) ∧
            s'.reserves = s.reserves - (countTeam ms t : ℤ) ∧ 0 ≤ s'.reserves) := by
    intro hw
    refine ⟨[], by simp [hw], by rw [hw], by rw [hw], by rw [hw], by simp, by simp, ?_⟩
    intro t s' hs'
    rw [hw] at hs'
    refine ⟨s', hs', rfl, rfl, by simp [countTeam], by simp [countTeam], ?_⟩
    exact hres (t, s') (alGet_mem _ _ _ hs')
  by_cases h0 : max 0 (cfg.maxMonkeys - (w.monkeys.length : ℤ)) = 0
  · exact hid (by rw [spawnFromReservesQ_eq, if_pos h0])
  · have hspec := reservesGo_spec cfg (max 0 (cfg.maxMonkeys - (w.monkeys.length : ℤ)))
      resR w.teamStats 0 0 hkeys hres
    by_cases hemp : (reservesGo cfg (max 0 (cfg.maxMonkeys - (w.monkeys.length : ℤ))) resR w.teamStats 0 0).2 = []
    · exact hid (by rw [spawnFromReservesQ_eq, if_neg h0, if_pos hemp])
    · have hw : spawnFromReservesQ w cfg resR =
          { monkeys := w.monkeys ++ (reservesGo cfg (max 0 (cfg.maxMonkeys - (w.monkeys.length : ℤ))) resR w.teamStats 0 0).2,
            teamStats := (reservesGo cfg (max 0 (cfg.maxMonkeys - (w.monkeys.length : ℤ))) resR w.teamStats 0 0).1,
            teamPools := w.teamPools,
            bananas := w.bananas } := by
        rw [spawnFromReservesQ_eq, if_neg h0, if_neg hemp]
      refine ⟨(reservesGo cfg (max 0 (cfg.maxMonkeys - (w.monkeys.length : ℤ))) resR w.teamStats 0 0).2,
        by rw [hw], by rw [hw], by rw [hw], by rw [hw]; exact hspec.1, ?_, ?_, ?_⟩
      · intro m hm
        exact hspec.2.1 m hm
      · have hA : (0:ℤ) ≤ max 0 (cfg.maxMonkeys - (w.monkeys.length : ℤ)) := le_max_left _ _
        have h1 := hspec.2.2.1
        rw [sub_zero, max_eq_right hA] at h1
        have hb1 : (w.monkeys.length : ℤ) ≤ max (w.monkeys.length : ℤ) cfg.maxMonkeys :=
          le_max_left _ _
        have hb2 : (cfg.maxMonkeys : ℤ) ≤ max (w.monkeys.length : ℤ) cfg.maxMonkeys :=
          le_max_right _ _
        have hA2 : max 0 (cfg.maxMonkeys - (w.monkeys.length : ℤ)) ≤
            max (w.monkeys.length : ℤ) cfg.maxMonkeys - (w.monkeys.length : ℤ) :=
          max_le (by linarith) (by linarith)
        linarith
      · intro t s' hs'
        rw [hw] at hs'
        exact hspec.2.2.2 t s' hs'

theorem alGet_of_mem {α : Type} (l : List (String × α)) (e : String × α)
    (hnd : (l.map Prod.fst).Nodup) (he : e ∈ l) : alGet l e.1 = some e.2 := by
  induction l with
  | nil => simp at he
  | cons f rest ih =>
    simp only [List.map_cons, List.nodup_cons] at hnd
    rw [alGet_cons]
    rcases List.mem_cons.mp he with h1 | h1
    · subst h1
      rw [if_pos rfl]
    · by_cases hf : f.1 = e.1
      · exact absurd (hf ▸ List.mem_map.mpr ⟨e, h1, rfl⟩) hnd.1
      · rw [if_neg hf]
        exact ih hnd.2 h1

theorem manageBananasQ_monkeys (w : World) (cfg : GameConfig) (r : BanRand) :
    (manageBananasQ w cfg r).monkeys = w.monkeys := by
  unfold manageBananasQ
  split <;> rfl

theorem manageBananasQ_teamStats (w : World) (cfg : GameConfig) (r : BanRand) :
    (manageBananasQ w cfg r).teamStats = w.teamStats := by
  unfold manageBananasQ
  split <;> rfl

theorem collectGo_countTeam (ms : List Monkey) (bs : List Banana) (t : String) :
    countTeam (collectGo ms bs).1 t = countTeam ms t :=
  countTeam_congr _ _ t (map_teamId_of_map_static _ _ (collectGo_map_static ms bs))

theorem stepWorldQ_eq (w : World) (dt now : ℚ) (cfg : GameConfig) (fe : Bool)
    (stepR : ℕ → StepRand) (resR : ℕ → SpawnRand) (banR : BanRand) :
    stepWorldQ w dt now cfg fe stepR resR banR =
      manageBananasQ (collectBananasQ
        (if 0 < (stepDeadList w dt now cfg fe stepR).length then
           spawnFromReservesQ (stepWorldReconciled w dt now cfg fe stepR) cfg resR
         else stepWorldReconciled w dt now cfg fe stepR)) cfg banR := rfl

theorem tick_tail_alive (w2 : World) (cfg : GameConfig) (banR : BanRand)
    (hmon : ∀ m ∈ w2.monkeys, 0 < m.hp)
    (hban : ∀ b ∈ w2.bananas, 0 ≤ b.healAmount)
    (hcnt : ∀ t s', alGet w2.teamStats t = some s' →
      s'.alive = (countTeam w2.monkeys t : ℤ)) :
    ∀ t s', alGet (manageBananasQ (collectBananasQ w2) cfg banR).teamStats t = some s' →
      s'.alive = countLiveTeam (manageBananasQ (collectBananasQ w2) cfg banR).monkeys t := by
  intro t s' hs'
  rw [manageBananasQ_teamStats] at hs'
  rw [manageBananasQ_monkeys]
  have hpos : ∀ m ∈ (collectBananasQ w2).monkeys, 0 < m.hp :=
    collectGo_hp_pos w2.monkeys w2.bananas hban hmon
  rw [countTeam_filter_live _ t hpos]
  have hmm : (collectBananasQ w2).monkeys = (collectGo w2.monkeys w2.bananas).1 := rfl
  rw [hmm, collectGo_countTeam]
  exact hcnt t s' hs'

theorem stepDamagePhase_false_get (w : World) (dt now : ℚ) (cfg : GameConfig)
    (stepR : ℕ → StepRand) (i : ℕ) :
    (stepDamagePhase w dt now cfg false stepR).get? i =
      (w.monkeys.get? i).map (fun m =>
        { stepMonkey (w.monkeys.map resetMonkey) w.bananas dt now cfg false (stepR i)
            (resetMonkey m) with targetId := none }) := by
  have hphase : stepDamagePhase w dt now cfg false stepR =
      (stepAllGo (w.monkeys.map resetMonkey) w.bananas dt now cfg false stepR
        (w.monkeys.map resetMonkey) 0).map (fun m => { m with targetId := none }) := rfl
  rw [hphase, List.get?_map, stepAllGo_get, List.get?_map]
  cases w.monkeys.get? i with
  | none => rfl
  | some m => simp

theorem stepDamagePhase_false_props (w : World) (dt now : ℚ) (cfg : GameConfig)
    (stepR : ℕ → StepRand) (i : ℕ) (m m' : Monkey)
    (hm : w.monkeys.get? i = some m)
    (hm' : (stepDamagePhase w dt now cfg false stepR).get? i = some m') :
    m'.hp = m.hp ∧ m'.maxHp = m.maxHp ∧ m'.teamId = m.teamId ∧ m'.targetId = none := by
  rw [stepDamagePhase_false_get, hm, Option.map_some'] at hm'
  have h2 := Option.some.inj hm'
  subst h2
  exact ⟨rfl, rfl, rfl, rfl⟩

theorem stepDamagePhase_false_pos (w : World) (dt now : ℚ) (cfg : GameConfig)
    (stepR : ℕ → StepRand) (hlive : ∀ m ∈ w.monkeys, 0 < m.hp) :
    ∀ m' ∈ stepDamagePhase w dt now cfg false stepR, 0 < m'.hp := by
  intro m' hm'
  rcases List.mem_iff_get?.mp hm' with ⟨i, hi⟩
  cases hm : w.monkeys.get? i with
  | none => rw [stepDamagePhase_false_get, hm] at hi; simp at hi
  | some m =>
    have h := stepDamagePhase_false_props w dt now cfg stepR i m m' hm hi
    rw [h.1]
    exact hlive m (List.get?_mem hm)

theorem stepDeadList_false_nil (w : World) (dt now : ℚ) (cfg : GameConfig)
    (stepR : ℕ → StepRand) (hlive : ∀ m ∈ w.monkeys, 0 < m.hp) :
    stepDeadList w dt now cfg false stepR = [] := by
  unfold stepDeadList
  apply List.filter_eq_nil.mpr
  intro m hm
  have := stepDamagePhase_false_pos w dt now cfg stepR hlive m hm
  simpa using not_le.mpr this

theorem stepAliveList_false (w : World) (dt now : ℚ) (cfg : GameConfig)
    (stepR : ℕ → StepRand) (hlive : ∀ m ∈ w.monkeys, 0 < m.hp) :
    stepAliveList w dt now cfg false stepR = stepDamagePhase w dt now cfg false stepR := by
  unfold stepAliveList
  apply List.filter_eq_self.mpr
  intro m hm
  simpa using stepDamagePhase_false_pos w dt now cfg stepR hlive m hm

theorem hpOps_fold_bounds (maxHp : ℚ) (ops : List HpOp) :
    ∀ hp : ℚ, 0 ≤ hp → hp ≤ maxHp → (∀ op ∈ ops, 0 ≤ hpOpAmount op) →
      0 ≤ ops.foldl (applyHpOp maxHp) hp ∧ ops.foldl (applyHpOp maxHp) hp ≤ maxHp := by
  induction ops with
  | nil => exact fun hp h0 h1 _ => ⟨h0, h1⟩
  | cons op rest ih =>
    intro hp h0 h1 hops
    have hop : 0 ≤ hpOpAmount op := hops op (List.mem_cons_self _ _)
    have hrest : ∀ o ∈ rest, 0 ≤ hpOpAmount o :=
      fun o ho => hops o (List.mem_cons_of_mem _ ho)
    rw [List.foldl_cons]
    apply ih
    · cases op with
      | damage a => exact le_max_left _ _
      | heal a =>
        have ha : 0 ≤ a := hop
        exact le_min (by linarith) (by linarith)
    · cases op with
      | damage a =>
        have ha : 0 ≤ a := hop
        exact max_le (by linarith) (by linarith)
      | heal a => exact min_le_left _ _
    · exact hrest

theorem stepWorldQ_monkeys_pos (w : World) (dt now : ℚ) (cfg : GameConfig) (fe : Bool)
    (stepR : ℕ → StepRand) (resR : ℕ → SpawnRand) (banR : BanRand)
    (hwf : WFWorld w) :
    ∀ m' ∈ (stepWorldQ w dt now cfg fe stepR resR banR).monkeys, 0 < m'.hp := by
  obtain ⟨hnd, hban, hres⟩ := hwf
  have hrec := stepWorldReconciled_spec w dt now cfg fe stepR
  have haliveL : ∀ m ∈ stepAliveList w dt now cfg fe stepR, 0 < m.hp := by
    intro m hm
    unfold stepAliveList at hm
    simpa using (List.mem_filter.mp hm).2
  have hw1mon : ∀ m ∈ (stepWorldReconciled w dt now cfg fe stepR).monkeys, 0 < m.hp := by
    intro m hm
    rw [hrec.2.2.1] at hm
    exact haliveL m hm
  have hw1keys : ((stepWorldReconciled w dt now cfg fe stepR).teamStats.map Prod.fst).Nodup := by
    rw [hrec.2.2.2.1]
    exact hnd
  have hw1res : ∀ e ∈ (stepWorldReconciled w dt now cfg fe stepR).teamStats,
      0 ≤ e.2.reserves := by
    intro e he
    have hget := alGet_of_mem _ e hw1keys he
    obtain ⟨s, hsget, _, hsres, _, _⟩ := (hrec.2.2.2.2 e.1 e.2 hget).2
    rw [hsres]
    exact hres (e.1, s) (alGet_mem _ _ _ hsget)
  have hw1ban : ∀ b ∈ (stepWorldReconciled w dt now cfg fe stepR).bananas,
      0 ≤ b.healAmount := by
    intro b hb
    rw [hrec.2.1] at hb
    exact hban b hb
  obtain ⟨ms, hmons, hpools, hbans, hkeys2, hmsfacts, hlen, hstats⟩ :=
    spawnFromReservesQ_spec (stepWorldReconciled w dt now cfg fe stepR) cfg resR hw1keys hw1res
  have hSmon : ∀ m ∈ (spawnFromReservesQ (stepWorldReconciled w dt now cfg fe stepR) cfg resR).monkeys,
      0 < m.hp := by
    intro m hm
    rw [hmons] at hm
    rcases List.mem_append.mp hm with h1 | h1
    · exact hw1mon m h1
    · exact (hmsfacts m h1).1
  have hSban : ∀ b ∈ (spawnFromReservesQ (stepWorldReconciled w dt now cfg fe stepR) cfg resR).bananas,
      0 ≤ b.healAmount := by
    intro b hb
    rw [hbans] at hb
    exact hw1ban b hb
  rw [stepWorldQ_eq]
  by_cases hd : 0 < (stepDeadList w dt now cfg fe stepR).length
  · rw [if_pos hd]
    intro m' hm'
    rw [manageBananasQ_monkeys] at hm'
    exact collectGo_hp_pos _ _ hSban hSmon m' hm'
  · rw [if_neg hd]
    intro m' hm'
    rw [manageBananasQ_monkeys] at hm'
    exact collectGo_hp_pos _ _ hw1ban hw1mon m' hm'

theorem alSet_cons {α : Type} (e : String × α) (l : List (String × α)) (k : String)
    (v : α) :
    alSet (e :: l) k v = if e.1 = k then (k, v) :: l else e :: alSet l k v := rfl

theorem alSet_keys {α : Type} (k : String) (v : α) :
    ∀ l : List (String × α), (alSet l k v).map Prod.fst =
      if k ∈ l.map Prod.fst then l.map Prod.fst else l.map Prod.fst ++ [k]
  | [] => by simp [alSet]
  | e :: rest => by
    rw [alSet_cons]
    by_cases he : e.1 = k
    · rw [if_pos he]
      simp [he]
    · rw [if_neg he]
      simp only [List.map_cons]
      rw [alSet_keys k v rest]
      by_cases hk : k ∈ rest.map Prod.fst
      · rw [if_pos hk, if_pos (List.mem_cons_of_mem _ hk)]
      · rw [if_neg hk, if_neg ?hnotin]
        · simp
        case hnotin =>
          intro hc
          rcases List.mem_cons.mp hc with h1 | h1
          · exact he h1.symm
          · exact hk h1

theorem alGet_alSet_ne {α : Type} (k t : String) (v : α) (hne : ¬ k = t) :
    ∀ l : List (String × α), alGet (alSet l k v) t = alGet l t
  | [] => by
    rw [show alSet ([] : List (String × α)) k v = [(k, v)] from rfl, alGet_cons, if_neg hne]
  | e :: rest => by
    rw [alSet_cons]
    by_cases he : e.1 = k
    · rw [if_pos he, alGet_cons, alGet_cons, if_neg hne, if_neg (by rw [he]; exact hne)]
    · rw [if_neg he, alGet_cons, alGet_cons]
      by_cases het : e.1 = t
      · rw [if_pos het, if_pos het]
      · rw [if_neg het, if_neg het]
        exact alGet_alSet_ne k t v hne rest

theorem alSet_mem_nodup {α : Type} (k : String) (v : α) (l : List (String × α))
    (hnd : (l.map Prod.fst).Nodup) :
    ∀ e' ∈ alSet l k v, e' = (k, v) ∨ (e' ∈ l ∧ e'.1 ≠ k) := by
  induction l with
  | nil =>
    intro e' h
    rw [show alSet ([] : List (String × α)) k v = [(k, v)] from rfl] at h
    exact Or.inl (by simpa using h)
  | cons e rest ih =>
    simp only [List.map_cons, List.nodup_cons] at hnd
    intro e' h
    rw [alSet_cons] at h
    by_cases he : e.1 = k
    · rw [if_pos he] at h
      rcases List.mem_cons.mp h with h1 | h1
      · exact Or.inl h1
      · refine Or.inr ⟨List.mem_cons_of_mem _ h1, ?_⟩
        intro hk
        exact hnd.1 (he ▸ hk ▸ List.mem_map.mpr ⟨e', h1, rfl⟩)
    · rw [if_neg he] at h
      rcases List.mem_cons.mp h with h1 | h1
      · refine Or.inr ⟨h1 ▸ List.mem_cons_self _ _, ?_⟩
        rw [h1]
        exact he
      · rcases ih hnd.2 e' h1 with h2 | h2
        · exact Or.inl h2
        · exact Or.inr ⟨List.mem_cons_of_mem _ h2.1, h2.2⟩

theorem spawnMonkeysQ_eq2 (w : World) (count : ℤ) (teamId : String) (mt : MonkeyType)
    (atPos : Option Vector2) (cfg : GameConfig) (r : SpawnRand) :
    spawnMonkeysQ w count teamId mt atPos cfg r =
      if count ≤ 0 then w
      else if min count (max 0 (cfg.maxMonkeys - (w.monkeys.length : ℤ))) = 0 then
        { monkeys := w.monkeys
          teamStats := spawnStatsUpdate w count
            (min count (max 0 (cfg.maxMonkeys - (w.monkeys.length : ℤ)))) teamId mt
          teamPools := w.teamPools
          bananas := w.bananas }
      else
        { monkeys := w.monkeys ++
            (List.range (min count (max 0 (cfg.maxMonkeys - (w.monkeys.length : ℤ)))).toNat).map
              (fun i => mkSpawnedMonkey teamId mt
                (atPos.getD ⟨r.px * (cfg.width - 100) + 50, r.py * (cfg.height - 100) + 50⟩)
                (r.draw i))
          teamStats := spawnStatsUpdate w count
            (min count (max 0 (cfg.maxMonkeys - (w.monkeys.length : ℤ)))) teamId mt
          teamPools := w.teamPools
          bananas := w.bananas } := rfl

theorem spawnStats_inv (w : World) (count toSpawn : ℤ) (teamId : String)
    (mt : MonkeyType) (batch : List Monkey)
    (I2 : (w.teamStats.map Prod.fst).Nodup)
    (I3 : ∀ e ∈ w.teamStats, 0 ≤ e.2.reserves)
    (I4 : ∀ e ∈ w.teamStats, e.2.spawned = e.2.alive + e.2.dead + e.2.reserves)
    (I5 : ∀ e ∈ w.teamStats, e.2.alive = (countTeam w.monkeys e.1 : ℤ))
    (I6 : ∀ m ∈ w.monkeys, m.teamId ∈ w.teamStats.map Prod.fst)
    (h0 : 0 ≤ toSpawn) (h1 : toSpawn ≤ count)
    (hbself : (countTeam batch teamId : ℤ) = toSpawn)
    (hbne : ∀ t, t ≠ teamId → countTeam batch t = 0)
    (hbmem : ∀ m ∈ batch, m.teamId = teamId) :
    ((spawnStatsUpdate w count toSpawn teamId mt).map Prod.fst).Nodup ∧
    (∀ e ∈ spawnStatsUpdate w count toSpawn teamId mt, 0 ≤ e.2.reserves) ∧
    (∀ e ∈ spawnStatsUpdate w count toSpawn teamId mt,
      e.2.spawned = e.2.alive + e.2.dead + e.2.reserves) ∧
    (∀ e ∈ spawnStatsUpdate w count toSpawn teamId mt,
      e.2.alive = (countTeam (w.monkeys ++ batch) e.1 : ℤ)) ∧
    (∀ m ∈ w.monkeys ++ batch,
      m.teamId ∈ (spawnStatsUpdate w count toSpawn teamId mt).map Prod.fst) := by
  cases halg : alGet w.teamStats teamId with
  | some s =>
    have hsmem : (teamId, s) ∈ w.teamStats := alGet_mem _ _ _ halg
    have hkmem : teamId ∈ w.teamStats.map Prod.fst := by
      rw [← alGet_isSome_iff teamId w.teamStats, halg]
      rfl
    have hupd : spawnStatsUpdate w count toSpawn teamId mt =
        alSet w.teamStats teamId
          { s with spawned := s.spawned + count
                   alive := s.alive + toSpawn
                   reserves := s.reserves + (count - toSpawn)
                   monkeyType :=
                     if monkeyCost s.monkeyType < monkeyCost mt then mt
                     else s.monkeyType } := by
      unfold spawnStatsUpdate
      rw [halg]
    have hkeys : (spawnStatsUpdate w count toSpawn teamId mt).map Prod.fst =
        w.teamStats.map Prod.fst := by
      rw [hupd, alSet_keys, if_pos hkmem]
    refine ⟨by rw [hkeys]; exact I2, ?_, ?_, ?_, ?_⟩
    · intro e he
      rw [hupd] at he
      rcases alSet_mem_nodup _ _ _ I2 e he with h2 | h2
      · rw [h2]
        have := I3 (teamId, s) hsmem
        simp only at this ⊢
        linarith
      · exact I3 e h2.1
    · intro e he
      rw [hupd] at he
      rcases alSet_mem_nodup _ _ _ I2 e he with h2 | h2
      · rw [h2]
        have := I4 (teamId, s) hsmem
        simp only at this ⊢
        linarith
      · exact I4 e h2.1
    · intro e he
      rw [hupd] at he
      rcases alSet_mem_nodup _ _ _ I2 e he with h2 | h2
      · rw [h2]
        have h5 := I5 (teamId, s) hsmem
        simp only at h5 ⊢
        rw [countTeam_append]
        push_cast
        linarith [h5, hbself]
      · have h5 := I5 e h2.1
        rw [h5, countTeam_append, hbne e.1 (by exact fun hc => h2.2 hc), Nat.add_zero]
    · intro m hm
      rw [hkeys]
      rcases List.mem_append.mp hm with h2 | h2
      · exact I6 m h2
      · rw [hbmem m h2]
        exact hkmem
  | none =>
    have hknot : teamId ∉ w.teamStats.map Prod.fst := by
      intro hc
      have := (alGet_isSome_iff teamId w.teamStats).mpr hc
      rw [halg] at this
      exact absurd this (by simp)
    have hcnt0 : countTeam w.monkeys teamId = 0 := by
      apply countTeam_eq_zero
      intro m hm hc
      exact hknot (hc ▸ I6 m hm)
    have hupd : spawnStatsUpdate w count toSpawn teamId mt =
        alSet w.teamStats teamId
          { teamId := teamId
            color := getTeamColor teamId
            totalSol := 0
            spawned := count
            alive := toSpawn
            dead := 0
            kills := 0
            reserves := count - toSpawn
            monkeyType := mt
            fundingWallets := [] } := by
      unfold spawnStatsUpdate
      rw [halg]
    have hkeys : (spawnStatsUpdate w count toSpawn teamId mt).map Prod.fst =
        w.teamStats.map Prod.fst ++ [teamId] := by
      rw [hupd, alSet_keys, if_neg hknot]
    refine ⟨?_, ?_, ?_, ?_, ?_⟩
    · rw [hkeys]
      rw [List.nodup_append]
      exact ⟨I2, List.nodup_singleton _, by simpa using hknot⟩
    · intro e he
      rw [hupd] at he
      rcases alSet_mem_nodup _ _ _ I2 e he with h2 | h2
      · rw [h2]
        simp only
        linarith
      · exact I3 e h2.1
    · intro e he
      rw [hupd] at he
      rcases alSet_mem_nodup _ _ _ I2 e he with h2 | h2
      · rw [h2]
        simp only
        ring
      · exact I4 e h2.1
    · intro e he
      rw [hupd] at he
      rcases alSet_mem_nodup _ _ _ I2 e he with h2 | h2
      · rw [h2]
        simp only
        rw [countTeam_append, hcnt0]
        push_cast
        linarith [hbself]
      · have h5 := I5 e h2.1
        rw [h5, countTeam_append, hbne e.1 (by exact fun hc => h2.2 hc), Nat.add_zero]
    · intro m hm
      rw [hkeys]
      rcases List.mem_append.mp hm with h2 | h2
      · exact List.mem_append_left _ (I6 m h2)
      · apply List.mem_append_right
        rw [hbmem m h2]
        exact List.mem_singleton_self _

theorem spawnMonkeysQ_inv (cfg : GameConfig) (w : World) (count : ℤ) (teamId : String)
    (mt : MonkeyType) (atPos : Option Vector2) (r : SpawnRand)
    (hinv : EngineInv cfg w) :
    EngineInv cfg (spawnMonkeysQ w count teamId mt atPos cfg r) := by
  obtain ⟨I1, I2, I3, I4, I5, I6⟩ := hinv
  by_cases hc : count ≤ 0
  · rw [spawnMonkeysQ_eq2, if_pos hc]
    exact ⟨I1, I2, I3, I4, I5, I6⟩
  · rw [spawnMonkeysQ_eq2, if_neg hc]
    push_neg at hc
    have havail0 : (0 : ℤ) ≤ max 0 (cfg.maxMonkeys - (w.monkeys.length : ℤ)) :=
      le_max_left _ _
    have hts0 : 0 ≤ min count (max 0 (cfg.maxMonkeys - (w.monkeys.length : ℤ))) :=
      le_min (le_of_lt hc) havail0
    have htsc : min count (max 0 (cfg.maxMonkeys - (w.monkeys.length : ℤ))) ≤ count :=
      min_le_left _ _
    by_cases hz : min count (max 0 (cfg.maxMonkeys - (w.monkeys.length : ℤ))) = 0
    · rw [if_pos hz]
      have hs := spawnStats_inv w count
        (min count (max 0 (cfg.maxMonkeys - (w.monkeys.length : ℤ)))) teamId mt []
        I2 I3 I4 I5 I6 hts0 htsc (by rw [hz]; simp [countTeam])
        (fun t _ => by simp [countTeam]) (fun m hm => by simp at hm)
      refine ⟨I1, hs.1, hs.2.1, hs.2.2.1, ?_, ?_⟩
      · intro e he
        have := hs.2.2.2.1 e he
        simpa using this
      · intro m hm
        exact hs.2.2.2.2 m (List.mem_append_left _ hm)
    · rw [if_neg hz]
      have hbself : (countTeam
          ((List.range (min count (max 0 (cfg.maxMonkeys - (w.monkeys.length : ℤ)))).toNat).map
            (fun i => mkSpawnedMonkey teamId mt
              (atPos.getD ⟨r.px * (cfg.width - 100) + 50, r.py * (cfg.height - 100) + 50⟩)
              (r.draw i))) teamId : ℤ) =
          min count (max 0 (cfg.maxMonkeys - (w.monkeys.length : ℤ))) := by
        rw [countTeam_batch_self]
        exact Int.toNat_of_nonneg hts0
      have hs := spawnStats_inv w count
        (min count (max 0 (cfg.maxMonkeys - (w.monkeys.length : ℤ)))) teamId mt
        ((List.range (min count (max 0 (cfg.maxMonkeys - (w.monkeys.length : ℤ)))).toNat).map
          (fun i => mkSpawnedMonkey teamId mt
            (atPos.getD ⟨r.px * (cfg.width - 100) + 50, r.py * (cfg.height - 100) + 50⟩)
            (r.draw i)))
        I2 I3 I4 I5 I6 hts0 htsc hbself
        (fun t ht => countTeam_batch_ne _ _ _ _ _ _ (fun hh => ht hh.symm))
        (fun m hm => (batch_member _ _ _ _ _ m hm).2.2.2)
      refine ⟨?_, hs.1, hs.2.1, hs.2.2.1, hs.2.2.2.1, hs.2.2.2.2⟩
      show ((w.monkeys ++ _).length : ℤ) ≤ cfg.maxMonkeys
      rw [List.length_append, List.length_map, List.length_range]
      push_cast
      rw [Int.toNat_of_nonneg hts0]
      have h2 : min count (max 0 (cfg.maxMonkeys - (w.monkeys.length : ℤ))) ≤
          max 0 (cfg.maxMonkeys - (w.monkeys.length : ℤ)) := min_le_right _ _
      rcases le_total (cfg.maxMonkeys - (w.monkeys.length : ℤ)) 0 with hm | hm
      · have h3 : max 0 (cfg.maxMonkeys - (w.monkeys.length : ℤ)) = 0 := max_eq_left hm
        linarith [h2, h3, hts0, I1]
      · have h3 : max 0 (cfg.maxMonkeys - (w.monkeys.length : ℤ)) =
            cfg.maxMonkeys - (w.monkeys.length : ℤ) := max_eq_right hm
        linarith [h2, h3]

theorem spawnMonkeysQ_overflow (w : World) (count : ℤ) (tid : String) (mt : MonkeyType)
    (atPos : Option Vector2) (cfg : GameConfig) (r : SpawnRand)
    (hc : 0 < count) (s : TeamStats)
    (halg : alGet w.teamStats tid = some s) :
    alGet (spawnMonkeysQ w count tid mt atPos cfg r).teamStats tid =
      some { s with
        spawned := s.spawned + count
        alive := s.alive + min count (max 0 (cfg.maxMonkeys - (w.monkeys.length : ℤ)))
        reserves := s.reserves +
          (count - min count (max 0 (cfg.maxMonkeys - (w.monkeys.length : ℤ))))
        monkeyType := if monkeyCost s.monkeyType < monkeyCost mt then mt
          else s.monkeyType } := by
  have hstats : (spawnMonkeysQ w count tid mt atPos cfg r).teamStats =
      spawnStatsUpdate w count
        (min count (max 0 (cfg.maxMonkeys - (w.monkeys.length : ℤ)))) tid mt := by
    rw [spawnMonkeysQ_eq2, if_neg (not_le.mpr hc)]
    split <;> rfl
  rw [hstats]
  unfold spawnStatsUpdate
  rw [halg]
  exact alGet_alSet_self _ _ _

theorem inv_stats_swap (cfg : GameConfig) (w : World) (tid : String) (X : TeamStats)
    (p : List (String × TeamPool))
    (hinv : EngineInv cfg w)
    (hc : ∀ s0, alGet w.teamStats tid = some s0 →
      X.spawned = s0.spawned ∧ X.alive = s0.alive ∧ X.dead = s0.dead ∧
        X.reserves = s0.reserves)
    (hn : alGet w.teamStats tid = none →
      X.spawned = 0 ∧ X.alive = 0 ∧ X.dead = 0 ∧ X.reserves = 0) :
    EngineInv cfg { monkeys := w.monkeys, teamStats := alSet w.teamStats tid X,
                    teamPools := p, bananas := w.bananas } := by
  obtain ⟨I1, I2, I3, I4, I5, I6⟩ := hinv
  cases halg : alGet w.teamStats tid with
  | some s0 =>
    obtain ⟨e1, e2, e3, e4⟩ := hc s0 halg
    have hsmem := alGet_mem _ _ _ halg
    have hkmem : tid ∈ w.teamStats.map Prod.fst := by
      rw [← alGet_isSome_iff tid w.teamStats, halg]
      rfl
    have hkeys : (alSet w.teamStats tid X).map Prod.fst = w.teamStats.map Prod.fst := by
      rw [alSet_keys, if_pos hkmem]
    refine ⟨I1, ?_, ?_, ?_, ?_, ?_⟩
    · show ((alSet w.teamStats tid X).map Prod.fst).Nodup
      rw [hkeys]
      exact I2
    · intro e he
      rcases alSet_mem_nodup _ _ _ I2 e he with h2 | h2
      · rw [h2]
        show 0 ≤ X.reserves
        rw [e4]
        exact I3 (tid, s0) hsmem
      · exact I3 e h2.1
    · intro e he
      rcases alSet_mem_nodup _ _ _ I2 e he with h2 | h2
      · rw [h2]
        show X.spawned = X.alive + X.dead + X.reserves
        rw [e1, e2, e3, e4]
        exact I4 (tid, s0) hsmem
      · exact I4 e h2.1
    · intro e he
      rcases alSet_mem_nodup _ _ _ I2 e he with h2 | h2
      · rw [h2]
        show X.alive = (countTeam w.monkeys tid : ℤ)
        rw [e2]
        exact I5 (tid, s0) hsmem
      · exact I5 e h2.1
    · intro m hm
      show m.teamId ∈ (alSet w.teamStats tid X).map Prod.fst
      rw [hkeys]
      exact I6 m hm
  | none =>
    obtain ⟨e1, e2, e3, e4⟩ := hn halg
    have hknot : tid ∉ w.teamStats.map Prod.fst := by
      intro hcmem
      have := (alGet_isSome_iff tid w.teamStats).mpr hcmem
      rw [halg] at this
      exact absurd this (by simp)
    have hcnt0 : countTeam w.monkeys tid = 0 := by
      apply countTeam_eq_zero
      intro m hm hceq
      exact hknot (hceq ▸ I6 m hm)
    have hkeys : (alSet w.teamStats tid X).map Prod.fst =
        w.teamStats.map Prod.fst ++ [tid] := by
      rw [alSet_keys, if_neg hknot]
    refine ⟨I1, ?_, ?_, ?_, ?_, ?_⟩
    · show ((alSet w.teamStats tid X).map Prod.fst).Nodup
      rw [hkeys, List.nodup_append]
      exact ⟨I2, List.nodup_singleton _, by simpa using hknot⟩
    · intro e he
      rcases alSet_mem_nodup _ _ _ I2 e he with h2 | h2
      · rw [h2]
        show 0 ≤ X.reserves
        rw [e4]
      · exact I3 e h2.1
    · intro e he
      rcases alSet_mem_nodup _ _ _ I2 e he with h2 | h2
      · rw [h2]
        show X.spawned = X.alive + X.dead + X.reserves
        rw [e1, e2, e3, e4]
        ring
      · exact I4 e h2.1
    · intro e he
      rcases alSet_mem_nodup _ _ _ I2 e he with h2 | h2
      · rw [h2]
        show X.alive = (countTeam w.monkeys tid : ℤ)
        rw [e2, hcnt0]
        rfl
      · exact I5 e h2.1
    · intro m hm
      show m.teamId ∈ (alSet w.teamStats tid X).map Prod.fst
      rw [hkeys]
      exact List.mem_append_left _ (I6 m hm)

theorem processTransactionQ_shape (w : World) (t : TransactionEvent) :
    ∃ (X : TeamStats) (p : List (String × TeamPool)),
      processTransactionQ w t =
        { monkeys := w.monkeys
          teamStats := alSet w.teamStats t.teamId X
          teamPools := p
          bananas := w.bananas } ∧
      X.spawned = ((alGet w.teamStats t.teamId).map (fun s => s.spawned)).getD 0 ∧
      X.alive = ((alGet w.teamStats t.teamId).map (fun s => s.alive)).getD 0 ∧
      X.dead = ((alGet w.teamStats t.teamId).map (fun s => s.dead)).getD 0 ∧
      X.reserves = ((alGet w.teamStats t.teamId).map (fun s => s.reserves)).getD 0 := by
  unfold processTransactionQ
  simp only []
  split
  · split
    · split
      · refine ⟨_, _, rfl, ?_, ?_, ?_, ?_⟩ <;>
          (cases halg : alGet w.teamStats t.teamId <;> simp [halg])
      · refine ⟨_, _, rfl, ?_, ?_, ?_, ?_⟩ <;>
          (cases halg : alGet w.teamStats t.teamId <;> simp [halg])
    · refine ⟨_, _, rfl, ?_, ?_, ?_, ?_⟩ <;>
        (cases halg : alGet w.teamStats t.teamId <;> simp [halg])
  · refine ⟨_, _, rfl, ?_, ?_, ?_, ?_⟩ <;>
      (cases halg : alGet w.teamStats t.teamId <;> simp [halg])

theorem processTransactionQ_inv (cfg : GameConfig) (w : World) (t : TransactionEvent)
    (hinv : EngineInv cfg w) : EngineInv cfg (processTransactionQ w t) := by
  obtain ⟨X, p, heq, h1, h2, h3, h4⟩ := processTransactionQ_shape w t
  rw [heq]
  apply inv_stats_swap cfg w t.teamId X p hinv
  · intro s0 halg
    rw [halg] at h1 h2 h3 h4
    exact ⟨by simpa using h1, by simpa using h2, by simpa using h3, by simpa using h4⟩
  · intro halg
    rw [halg] at h1 h2 h3 h4
    exact ⟨by simpa using h1, by simpa using h2, by simpa using h3, by simpa using h4⟩

theorem inv_tick_tail (cfg : GameConfig) (w2 : World) (banR : BanRand)
    (hlen : ((w2.monkeys.length : ℤ)) ≤ cfg.maxMonkeys)
    (hkeys : (w2.teamStats.map Prod.fst).Nodup)
    (hI3 : ∀ e ∈ w2.teamStats, 0 ≤ e.2.reserves)
    (hI4 : ∀ e ∈ w2.teamStats, e.2.spawned = e.2.alive + e.2.dead + e.2.reserves)
    (hI5 : ∀ e ∈ w2.teamStats, e.2.alive = (countTeam w2.monkeys e.1 : ℤ))
    (hI6 : ∀ m ∈ w2.monkeys, m.teamId ∈ w2.teamStats.map Prod.fst) :
    EngineInv cfg (manageBananasQ (collectBananasQ w2) cfg banR) := by
  have hmon : (manageBananasQ (collectBananasQ w2) cfg banR).monkeys =
      (collectGo w2.monkeys w2.bananas).1 := by
    rw [manageBananasQ_monkeys]
    rfl
  have hstats : (manageBananasQ (collectBananasQ w2) cfg banR).teamStats =
      w2.teamStats := by
    rw [manageBananasQ_teamStats]
    rfl
  refine ⟨?_, ?_, ?_, ?_, ?_, ?_⟩
  · rw [hmon, collectGo_length]
    exact hlen
  · rw [hstats]
    exact hkeys
  · rw [hstats]
    exact hI3
  · rw [hstats]
    exact hI4
  · intro e he
    rw [hstats] at he
    rw [hmon, collectGo_countTeam]
    exact hI5 e he
  · intro m hm
    rw [hmon] at hm
    rw [hstats]
    have hmap := map_teamId_of_map_static _ _ (collectGo_map_static w2.monkeys w2.bananas)
    have h2 : m.teamId ∈ (collectGo w2.monkeys w2.bananas).1.map (fun m => m.teamId) :=
      List.mem_map.mpr ⟨m, hm, rfl⟩
    rw [hmap] at h2
    rcases List.mem_map.mp h2 with ⟨m0, hm0, hteq⟩
    rw [← hteq]
    exact hI6 m0 hm0

theorem stepWorldQ_inv (cfg : GameConfig) (w : World) (dt now : ℚ) (fe : Bool)
    (stepR : ℕ → StepRand) (resR : ℕ → SpawnRand) (banR : BanRand)
    (hinv : EngineInv cfg w) :
    EngineInv cfg (stepWorldQ w dt now cfg fe stepR resR banR) := by
  obtain ⟨I1, I2, I3, I4, I5, I6⟩ := hinv
  have hrec := stepWorldReconciled_spec w dt now cfg fe stepR
  have hw1len : ((stepWorldReconciled w dt now cfg fe stepR).monkeys.length : ℤ) ≤
      (w.monkeys.length : ℤ) := by
    rw [hrec.2.2.1]
    have h1 : (stepAliveList w dt now cfg fe stepR).length ≤
        (stepDamagePhase w dt now cfg fe stepR).length := List.length_filter_le _ _
    rw [stepDamagePhase_length] at h1
    exact_mod_cast h1
  have hw1keys : ((stepWorldReconciled w dt now cfg fe stepR).teamStats.map Prod.fst).Nodup := by
    rw [hrec.2.2.2.1]
    exact I2
  have hw1I3 : ∀ e ∈ (stepWorldReconciled w dt now cfg fe stepR).teamStats,
      0 ≤ e.2.reserves := by
    intro e he
    have hget := alGet_of_mem _ e hw1keys he
    obtain ⟨s, hsget, _, hsres, _, _⟩ := (hrec.2.2.2.2 e.1 e.2 hget).2
    rw [hsres]
    exact I3 (e.1, s) (alGet_mem _ _ _ hsget)
  have hw1I4 : ∀ e ∈ (stepWorldReconciled w dt now cfg fe stepR).teamStats,
      e.2.spawned = e.2.alive + e.2.dead + e.2.reserves := by
    intro e he
    have hget := alGet_of_mem _ e hw1keys he
    obtain ⟨halive, s, hsget, hsp, hres', _, hdead⟩ := hrec.2.2.2.2 e.1 e.2 hget
    have hI4 := I4 (e.1, s) (alGet_mem _ _ _ hsget)
    have hI5 := I5 (e.1, s) (alGet_mem _ _ _ hsget)
    have hpart := step_count_partition w dt now cfg fe stepR e.1
    have hpartZ : ((countTeam (stepAliveList w dt now cfg fe stepR) e.1 : ℤ)) +
        (countTeam (stepDeadList w dt now cfg fe stepR) e.1 : ℤ) =
        (countTeam w.monkeys e.1 : ℤ) := by exact_mod_cast hpart
    rw [hsp, halive, hdead, hres']
    simp only at hI4 hI5
    linarith [hI4, hI5, hpartZ]
  have hw1I5 : ∀ e ∈ (stepWorldReconciled w dt now cfg fe stepR).teamStats,
      e.2.alive = (countTeam (stepWorldReconciled w dt now cfg fe stepR).monkeys e.1 : ℤ) := by
    intro e he
    have hget := alGet_of_mem _ e hw1keys he
    rw [hrec.2.2.1]
    exact (hrec.2.2.2.2 e.1 e.2 hget).1
  have hw1I6 : ∀ m ∈ (stepWorldReconciled w dt now cfg fe stepR).monkeys,
      m.teamId ∈ (stepWorldReconciled w dt now cfg fe stepR).teamStats.map Prod.fst := by
    intro m hm
    rw [hrec.2.2.2.1]
    rw [hrec.2.2.1] at hm
    have hm2 : m ∈ stepDamagePhase w dt now cfg fe stepR := List.mem_of_mem_filter hm
    have hmap := map_teamId_of_map_static _ _ (stepDamagePhase_map_static w dt now cfg fe stepR)
    have h2 : m.teamId ∈ (stepDamagePhase w dt now cfg fe stepR).map (fun m => m.teamId) :=
      List.mem_map.mpr ⟨m, hm2, rfl⟩
    rw [hmap] at h2
    rcases List.mem_map.mp h2 with ⟨m0, hm0, hteq⟩
    rw [← hteq]
    exact I6 m0 hm0
  rw [stepWorldQ_eq]
  by_cases hd : 0 < (stepDeadList w dt now cfg fe stepR).length
  · rw [if_pos hd]
    obtain ⟨ms, hmons, hpools, hbans, hkeys2, hmsfacts, hlen, hstats⟩ :=
      spawnFromReservesQ_spec (stepWorldReconciled w dt now cfg fe stepR) cfg resR
        hw1keys hw1I3
    have hSkeys : ((spawnFromReservesQ (stepWorldReconciled w dt now cfg fe stepR) cfg resR).teamStats.map Prod.fst).Nodup := by
      rw [hkeys2]
      exact hw1keys
    apply inv_tick_tail
    · rw [hmons, List.length_append]
      push_cast
      have h2 : max ((stepWorldReconciled w dt now cfg fe stepR).monkeys.length : ℤ)
          cfg.maxMonkeys ≤ cfg.maxMonkeys := max_le (by linarith) le_rfl
      linarith [hlen]
    · exact hSkeys
    · intro e he
      have hget := alGet_of_mem _ e hSkeys he
      obtain ⟨s, hsget, _, _, _, _, hnn⟩ := hstats e.1 e.2 hget
      exact hnn
    · intro e he
      have hget := alGet_of_mem _ e hSkeys he
      obtain ⟨s, hsget, hsp, hdead, halive, hresv, _⟩ := hstats e.1 e.2 hget
      have hI4 := hw1I4 (e.1, s) (alGet_mem _ _ _ hsget)
      simp only at hI4
      rw [hsp, hdead, halive, hresv]
      linarith [hI4]
    · intro e he
      have hget := alGet_of_mem _ e hSkeys he
      obtain ⟨s, hsget, _, _, halive, _, _⟩ := hstats e.1 e.2 hget
      have hI5 := hw1I5 (e.1, s) (alGet_mem _ _ _ hsget)
      simp only at hI5
      rw [halive, hI5, hmons, countTeam_append]
      push_cast
      ring
    · intro m hm
      rw [hkeys2]
      rw [hmons] at hm
      rcases List.mem_append.mp hm with h2 | h2
      · exact hw1I6 m h2
      · exact (hmsfacts m h2).2.2.2
  · rw [if_neg hd]
    apply inv_tick_tail
    · linarith [hw1len, I1]
    · exact hw1keys
    · exact hw1I3
    · exact hw1I4
    · exact hw1I5
    · exact hw1I6

theorem poolSpawnInner_inv (cfg : GameConfig) (tid : String) (r : ℕ → SpawnRand) :
    ∀ (alloc : List (MonkeyType × ℤ)) (w : World) (j : ℕ),
      EngineInv cfg w → EngineInv cfg (poolSpawnInner cfg tid r alloc w j)
  | [], w, j, h => h
  | p :: rest, w, j, h => by
    simp only [poolSpawnInner]
    split
    · exact poolSpawnInner_inv cfg tid r rest _ (j + 1)
        (spawnMonkeysQ_inv cfg w p.2 tid p.1 none (r j) h)
    · exact poolSpawnInner_inv cfg tid r rest w (j + 1) h

theorem poolsGo_inv (cfg : GameConfig) (oracle : ℕ → ℕ → SpawnRand) :
    ∀ (pools : List (String × TeamPool)) (w : World) (i : ℕ),
      EngineInv cfg w → EngineInv cfg (poolsGo cfg oracle pools w i)
  | [], w, i, h => h
  | e :: rest, w, i, h => by
    simp only [poolsGo]
    split
    · exact poolsGo_inv cfg oracle rest _ (i + 1)
        (poolSpawnInner_inv cfg e.1 (oracle i) _ w 0 h)
    · exact poolsGo_inv cfg oracle rest w (i + 1) h

theorem spawnMonkeysFromPoolsQ_inv (cfg : GameConfig) (w : World)
    (oracle : ℕ → ℕ → SpawnRand) (hinv : EngineInv cfg w) :
    EngineInv cfg (spawnMonkeysFromPoolsQ w cfg oracle) :=
  poolsGo_inv cfg oracle w.teamPools w 0 hinv

theorem applyOp_inv (cfg : GameConfig) (w : World) (op : EngineOp)
    (hinv : EngineInv cfg w) : EngineInv cfg (applyOp cfg w op) := by
  cases op with
  | spawn count teamId mt atPos r => exact spawnMonkeysQ_inv cfg w count teamId mt atPos r hinv
  | pools r => exact spawnMonkeysFromPoolsQ_inv cfg w r hinv
  | tick dt now fe stepR resR banR => exact stepWorldQ_inv cfg w dt now fe stepR resR banR hinv
  | tx t => exact processTransactionQ_inv cfg w t hinv

theorem runOps_inv (cfg : GameConfig) (hM : (0 : ℤ) ≤ cfg.maxMonkeys)
    (ops : List EngineOp) : EngineInv cfg (runOps cfg ops) := by
  have hbase : EngineInv cfg createWorld := by
    refine ⟨by simpa [createWorld] using hM, ?_, ?_, ?_, ?_, ?_⟩ <;> simp [createWorld]
  have hgen : ∀ (l : List EngineOp) (w : World), EngineInv cfg w →
      EngineInv cfg (l.foldl (applyOp cfg) w) := by
    intro l
    induction l with
    | nil => exact fun w h => h
    | cons op rest ih =>
      intro w h
      rw [List.foldl_cons]
      exact ih _ (applyOp_inv cfg w op h)
  exact hgen ops createWorld hbase

-- Claim theorems.

/-- C2: the claimed rescue behaviour never happens.  `stepWorld` clears
every `isUnderAttack` flag before behaviour selection runs, so the
threatened-ally scan always returns nothing and the focus selection
degenerates to plain nearest-enemy seeking.  At the concrete failing
input `worldC2` (teammate `y` flagged under attack at x = 130, enemy at
x = 50), the would-be rescuer `r` at x = 100 moves with velocity
(-1, 0), away from the flagged teammate. -/
theorem claim_C2 :
    (∀ (self : Monkey) (l : List Monkey),
      findNearestThreatenedAlly self (l.map resetMonkey) = none ∧
      chooseFocus self (l.map resetMonkey) true = findNearestEnemy self (l.map resetMonkey)) ∧
    ((worldC2.monkeys.map (fun m => m.isUnderAttack)) = [false, true, false]) ∧
    ((stepWorldQ worldC2 0 0 cfgC2 true zeroStepR zeroSpawnR zeroBanR).monkeys.map
      (fun m => m.velocity)) = [⟨-1, 0⟩, ⟨-1, 0⟩, ⟨1, 0⟩] := by
  refine ⟨fun self l => ?_, by with_unfolding_all decide, by with_unfolding_all decide⟩
  have hnone : findNearestThreatenedAlly self (l.map resetMonkey) = none := by
    unfold findNearestThreatenedAlly
    rw [threatened_scan_dead]
    rfl
  refine ⟨hnone, ?_⟩
  unfold chooseFocus
  rw [hnone]
  rfl

/-- C3 counterexample: the total agent count of the greedy allocation is
not monotone.  0.95 SOL allocates nine small monkeys while the larger
amount 1 SOL allocates a single medium monkey. -/
theorem claim_C3_counterexample :
    (95 / 100 : ℚ) ≤ 1 ∧
    allocTotalCount (calculateMonkeySpawn (95 / 100)) = 9 ∧
    allocTotalCount (calculateMonkeySpawn 1) = 1 ∧
    ¬ allocTotalCount (calculateMonkeySpawn (95 / 100)) ≤
        allocTotalCount (calculateMonkeySpawn 1) := by
  refine ⟨by norm_num, ?_, ?_, ?_⟩ <;> with_unfolding_all decide

/-- C3 (amended): the greedy allocation is monotone in total allocated
SOL cost rather than in total agent count: for 0 ≤ a ≤ b, the summed
cost (count × tier cost) of `calculateMonkeySpawn a` is at most that of
`calculateMonkeySpawn b`. -/
theorem claim_C3 (a b : ℚ) (ha : 0 ≤ a) (hab : a ≤ b) :
    allocTotalCost (calculateMonkeySpawn a) ≤ allocTotalCost (calculateMonkeySpawn b) := by
  rw [allocCost_closed a ha, allocCost_closed b (le_trans ha hab)]
  have hfloor : ⌊(a + 1 / 10000) * 10⌋ ≤ ⌊(b + 1 / 10000) * 10⌋ := by
    apply Int.floor_mono
    nlinarith
  have hcast : ((⌊(a + 1 / 10000) * 10⌋ : ℤ) : ℚ) ≤ ((⌊(b + 1 / 10000) * 10⌋ : ℤ) : ℚ) :=
    Int.cast_le.mpr hfloor
  linarith

/-- C3 witness: the amended monotonicity applied at a = 1, b = 2. -/
theorem claim_C3_witness :
    (0 : ℚ) ≤ 1 ∧ (1 : ℚ) ≤ 2 ∧
    allocTotalCost (calculateMonkeySpawn 1) ≤ allocTotalCost (calculateMonkeySpawn 2) :=
  ⟨by norm_num, by norm_num, claim_C3 1 2 (by norm_num) (by norm_num)⟩

/-- C6 counterexample: all agents of `worldC6` start strictly inside the
arena inset by half their size (`[24, 176]` on each axis), yet after one
tick the first agent sits at x = 23 < 24: the pairwise collision
separation runs after the arena clamp and pushes it out of bounds. -/
theorem claim_C6_counterexample :
    (worldC6.monkeys.map (fun m =>
      decide ((getMonkeyStats m.monkeyType).size / 2 ≤ m.position.x) &&
      decide (m.position.x ≤ cfgC6.width - (getMonkeyStats m.monkeyType).size / 2) &&
      decide ((getMonkeyStats m.monkeyType).size / 2 ≤ m.position.y) &&
      decide (m.position.y ≤ cfgC6.height - (getMonkeyStats m.monkeyType).size / 2))) =
        [true, true] ∧
    ((stepWorldQ worldC6 1 0 cfgC6 true zeroStepR zeroSpawnR zeroBanR).monkeys.map
      (fun m => m.position.x)) = [23, 27] ∧
    ((stepWorldQ worldC6 1 0 cfgC6 true zeroStepR zeroSpawnR zeroBanR).monkeys.map
      (fun m => decide (m.position.x < (getMonkeyStats m.monkeyType).size / 2))) =
        [true, false] := by
  refine ⟨?_, ?_, ?_⟩ <;> with_unfolding_all decide

/-- C6 (amended): the per-tick arena clamp itself is correct — for any
proposed position, the clamped position of `stepWorld` (computed before
the collision-separation pass) lies within
[size/2, width − size/2] × [size/2, height − size/2] whenever the arena
is at least as large as the agent; the final position may then leave
these bounds because `resolveMonkeyCollision` is applied afterwards. -/
theorem claim_C6 (cfg : GameConfig) (mt : MonkeyType) (p : Vector2)
    (hw : (getMonkeyStats mt).size ≤ cfg.width)
    (hh : (getMonkeyStats mt).size ≤ cfg.height) :
    (getMonkeyStats mt).size / 2 ≤ (clampToArena cfg (getMonkeyStats mt).size p).x ∧
    (clampToArena cfg (getMonkeyStats mt).size p).x ≤
      cfg.width - (getMonkeyStats mt).size / 2 ∧
    (getMonkeyStats mt).size / 2 ≤ (clampToArena cfg (getMonkeyStats mt).size p).y ∧
    (clampToArena cfg (getMonkeyStats mt).size p).y ≤
      cfg.height - (getMonkeyStats mt).size / 2 := by
  have hx := clampQ_mem p.x ((getMonkeyStats mt).size / 2)
    (cfg.width - (getMonkeyStats mt).size / 2) (by linarith)
  have hy := clampQ_mem p.y ((getMonkeyStats mt).size / 2)
    (cfg.height - (getMonkeyStats mt).size / 2) (by linarith)
  exact ⟨hx.1, hx.2, hy.1, hy.2⟩

/-- C6 witness: the amended clamp bound applied to the small tier in a
200 × 200 arena at the proposed position (5, 300). -/
theorem claim_C6_witness :
    (getMonkeyStats MonkeyType.small).size ≤ cfgC6.width ∧
    (getMonkeyStats MonkeyType.small).size ≤ cfgC6.height ∧
    ((getMonkeyStats MonkeyType.small).size / 2 ≤
        (clampToArena cfgC6 (getMonkeyStats MonkeyType.small).size ⟨5, 300⟩).x ∧
      (clampToArena cfgC6 (getMonkeyStats MonkeyType.small).size ⟨5, 300⟩).x ≤
        cfgC6.width - (getMonkeyStats MonkeyType.small).size / 2 ∧
      (getMonkeyStats MonkeyType.small).size / 2 ≤
        (clampToArena cfgC6 (getMonkeyStats MonkeyType.small).size ⟨5, 300⟩).y ∧
      (clampToArena cfgC6 (getMonkeyStats MonkeyType.small).size ⟨5, 300⟩).y ≤
        cfgC6.height - (getMonkeyStats MonkeyType.small).size / 2) :=
  ⟨by with_unfolding_all decide, by with_unfolding_all decide,
   claim_C6 cfgC6 MonkeyType.small ⟨5, 300⟩ (by with_unfolding_all decide)
     (by with_unfolding_all decide)⟩

/-- C7: for every nonnegative amount, `getTeamIdFromSolAmount` returns
the decimal-digit string of the second decimal digit of the amount
rounded up to the nearest 0.01 — computed exactly, this digit is
`⌈amount × 100⌉ mod 10`; in particular 0.00932 maps to team "1" and
0.0982 maps to team "0". -/
theorem claim_C7 (a : ℚ) (ha : 0 ≤ a) :
    getTeamIdFromSolAmount a = toString (⌈a * 100⌉ % 10) ∧
    getTeamIdFromSolAmount (932 / 100000) = "1" ∧
    getTeamIdFromSolAmount (491 / 5000) = "0" := by
  refine ⟨?_, by with_unfolding_all decide, by with_unfolding_all decide⟩
  unfold getTeamIdFromSolAmount
  have hn : 0 ≤ ⌈a * 100⌉ := Int.ceil_nonneg (by positivity)
  set n : ℤ := ⌈a * 100⌉ with hndef
  have harg : (n : ℚ) / 100 * 100 = (n : ℚ) := by
    field_simp
  show toString (⌊jsRemQ ((n : ℚ) / 100 * 100) 10⌋) = toString (n % 10)
  rw [harg]
  have htr : jsTrunc ((n : ℚ) / 10) = n / 10 := by
    unfold jsTrunc
    rw [if_neg (not_lt.mpr (by positivity))]
    exact_mod_cast Rat.floor_intCast_div_natCast n 10
  have hrem : jsRemQ (n : ℚ) 10 = ((n % 10 : ℤ) : ℚ) := by
    unfold jsRemQ
    rw [htr]
    push_cast [Int.emod_def]
    ring
  rw [hrem, Int.floor_intCast]

/-- C7 witness: the digit law applied at amount 0.00932. -/
theorem claim_C7_witness :
    (0 : ℚ) ≤ 932 / 100000 ∧
    getTeamIdFromSolAmount (932 / 100000) = toString (⌈(932 / 100000 : ℚ) * 100⌉ % 10) :=
  ⟨by norm_num, (claim_C7 (932 / 100000) (by norm_num)).1⟩

/-- C8: banana collection is gated exactly by injury.  In a world with
one agent and one resource item: an agent at full health collects
nothing and the world is unchanged; an injured agent within pickup
radius (half its size plus half the item's size) is healed by
`floor(maxHp × healFraction)` capped at `maxHp`, and the item is
removed. -/
theorem claim_C8 (m : Monkey) (b : Banana) (ts : List (String × TeamStats))
    (tp : List (String × TeamPool)) :
    (m.hp = m.maxHp → collectBananasQ ⟨[m], ts, tp, [b]⟩ = ⟨[m], ts, tp, [b]⟩) ∧
    (m.hp < m.maxHp →
      hypotQ (m.position.x - b.position.x) (m.position.y - b.position.y) ≤
        (getMonkeyStats m.monkeyType).size / 2 + BANANA_SIZE / 2 →
      collectBananasQ ⟨[m], ts, tp, [b]⟩ =
        ⟨[{ m with hp := applyHealHp m.maxHp m.hp ((⌊m.maxHp * b.healAmount⌋ : ℤ) : ℚ) }],
         ts, tp, []⟩) := by
  constructor
  · intro h1
    have hc : canCollectBanana m = false := by simp [canCollectBanana, h1]
    simp [collectBananasQ, collectGo, hc]
  · intro h1 h2
    have hc : canCollectBanana m = true := by simp [canCollectBanana, h1]
    have hidx : firstBananaIdx m [b] = some 0 := by
      simp [firstBananaIdx, List.findIdx?, h2]
    simp [collectBananasQ, collectGo, hc, hidx]

/-- C8 witness: the injured-agent clause applied to an agent at
hp = 99 of 100 standing on a banana: it heals to 100 and the banana
disappears. -/
theorem claim_C8_witness :
    monkeyC8.hp < monkeyC8.maxHp ∧
    hypotQ (monkeyC8.position.x - bananaC8.position.x)
        (monkeyC8.position.y - bananaC8.position.y) ≤
      (getMonkeyStats monkeyC8.monkeyType).size / 2 + BANANA_SIZE / 2 ∧
    collectBananasQ ⟨[monkeyC8], [], [], [bananaC8]⟩ =
      ⟨[{ monkeyC8 with hp := 100 }], [], [], []⟩ := by
  refine ⟨by with_unfolding_all decide, by with_unfolding_all decide, ?_⟩
  have h := (claim_C8 monkeyC8 bananaC8 [] []).2 (by with_unfolding_all decide)
    (by with_unfolding_all decide)
  exact h.trans (by with_unfolding_all rfl)

/-- C9: a sell transaction removes exactly
`min(transaction amount, the wallet's recorded contribution)` from the
team pool (assuming the pool total covers the wallet's contribution, as
every pool built by `processTransaction` does); the pool total never
becomes negative; the wallet's entry is deleted when its contribution
reaches zero; and a sell from a wallet with no recorded contribution
changes no pool total and no contribution. -/
theorem claim_C9 (w : World) (t : TransactionEvent) (hsell : t.isSell = true)
    (hnd : ∀ p ∈ w.teamPools, (p.2.fundingWallets.map Prod.fst).Nodup) :
    (0 ≤ poolTotalSol w t.teamId → 0 ≤ poolTotalSol (processTransactionQ w t) t.teamId) ∧
    (0 < walletContribution w t.teamId t.wallet →
      walletContribution w t.teamId t.wallet ≤ poolTotalSol w t.teamId →
      poolTotalSol (processTransactionQ w t) t.teamId =
        poolTotalSol w t.teamId - min t.sol (walletContribution w t.teamId t.wallet) ∧
      walletContribution (processTransactionQ w t) t.teamId t.wallet =
        walletContribution w t.teamId t.wallet -
          min t.sol (walletContribution w t.teamId t.wallet) ∧
      (min t.sol (walletContribution w t.teamId t.wallet) =
          walletContribution w t.teamId t.wallet →
        ((alGet (processTransactionQ w t).teamPools t.teamId).bind
          (fun p => alGet p.fundingWallets t.wallet)) = none)) ∧
    (¬ 0 < walletContribution w t.teamId t.wallet →
      poolTotalSol (processTransactionQ w t) t.teamId = poolTotalSol w t.teamId ∧
      ∀ wal, walletContribution (processTransactionQ w t) t.teamId wal =
        walletContribution w t.teamId wal) := by
  cases hpool : alGet w.teamPools t.teamId with
  | none =>
    -- no pool yet: the recorded contribution is 0, the sell is a no-op
    -- apart from creating an empty pool for the team.
    have hc : walletContribution w t.teamId t.wallet = 0 := by
      simp [walletContribution, hpool]
    have hpools : (processTransactionQ w t).teamPools =
        alSet w.teamPools t.teamId ⟨t.teamId, 0, []⟩ := by
      unfold processTransactionQ
      rw [hpool, hsell]
      simp [alGet]
    have hget : alGet (processTransactionQ w t).teamPools t.teamId =
        some ⟨t.teamId, 0, []⟩ := by
      rw [hpools]
      exact alGet_alSet_self _ _ _
    refine ⟨?_, ?_, ?_⟩
    · intro _
      simp [poolTotalSol, hget]
    · intro hpos
      rw [hc] at hpos
      exact absurd hpos (by norm_num)
    · intro _
      constructor
      · simp [poolTotalSol, hget, hpool]
      · intro wal
        simp only [walletContribution]
        rw [hget, hpool]
        simp [alGet, List.find?]
  | some p =>
    have hcval : walletContribution w t.teamId t.wallet =
        ((alGet p.fundingWallets t.wallet).getD 0) := by
      simp [walletContribution, hpool]
    have htotval : poolTotalSol w t.teamId = p.totalSol := by
      simp [poolTotalSol, hpool]
    by_cases hc : 0 < (alGet p.fundingWallets t.wallet).getD 0
    · -- positive recorded contribution: the clamped removal applies.
      have hamtc : min t.sol ((alGet p.fundingWallets t.wallet).getD 0) ≤
          (alGet p.fundingWallets t.wallet).getD 0 := min_le_right _ _
      by_cases hz : (alGet p.fundingWallets t.wallet).getD 0 -
          min t.sol ((alGet p.fundingWallets t.wallet).getD 0) ≤ 0
      · -- the whole contribution is removed: the wallet entry is deleted.
        have hzz : (alGet p.fundingWallets t.wallet).getD 0 -
            min t.sol ((alGet p.fundingWallets t.wallet).getD 0) = 0 :=
          le_antisymm hz (by linarith)
        have hpools : (processTransactionQ w t).teamPools =
            alSet w.teamPools t.teamId
              ⟨p.teamId,
               max 0 (p.totalSol - min t.sol ((alGet p.fundingWallets t.wallet).getD 0)),
               alDelete p.fundingWallets t.wallet⟩ := by
          unfold processTransactionQ
          rw [hpool, hsell]
          simp only [Option.getD_some]
          simp [hc, hz]
        have hget : alGet (processTransactionQ w t).teamPools t.teamId =
            some ⟨p.teamId,
              max 0 (p.totalSol - min t.sol ((alGet p.fundingWallets t.wallet).getD 0)),
              alDelete p.fundingWallets t.wallet⟩ := by
          rw [hpools]
          exact alGet_alSet_self _ _ _
        have hdel : alGet (alDelete p.fundingWallets t.wallet) t.wallet = none :=
          alGet_alDelete_self p.fundingWallets t.wallet
            (hnd (t.teamId, p) (alGet_mem _ _ _ hpool))
        refine ⟨?_, ?_, ?_⟩
        · intro _
          simp [poolTotalSol, hget, le_max_left]
        · intro hpos hle
          rw [hcval] at hle
          rw [htotval] at hle
          have hmax : max 0 (p.totalSol -
              min t.sol ((alGet p.fundingWallets t.wallet).getD 0)) =
              p.totalSol - min t.sol ((alGet p.fundingWallets t.wallet).getD 0) := by
            rw [max_eq_right]
            linarith
          refine ⟨?_, ?_, ?_⟩
          · rw [hcval, htotval]
            simp only [poolTotalSol, hget]
            simpa using hmax
          · rw [hcval]
            simp only [walletContribution]
            rw [hget]
            simp [hdel]
            linarith
          · intro _
            rw [hget]
            simpa using hdel
        · intro hneg
          rw [hcval] at hneg
          exact absurd hc hneg
      · -- only part of the contribution is removed: the entry is updated.
        have hpools : (processTransactionQ w t).teamPools =
            alSet w.teamPools t.teamId
              ⟨p.teamId,
               max 0 (p.totalSol - min t.sol ((alGet p.fundingWallets t.wallet).getD 0)),
               alSet p.fundingWallets t.wallet
                 ((alGet p.fundingWallets t.wallet).getD 0 -
                   min t.sol ((alGet p.fundingWallets t.wallet).getD 0))⟩ := by
          unfold processTransactionQ
          rw [hpool, hsell]
          simp only [Option.getD_some]
          simp [hc, hz]
        have hget : alGet (processTransactionQ w t).teamPools t.teamId =
            some ⟨p.teamId,
              max 0 (p.totalSol - min t.sol ((alGet p.fundingWallets t.wallet).getD 0)),
              alSet p.fundingWallets t.wallet
                ((alGet p.fundingWallets t.wallet).getD 0 -
                  min t.sol ((alGet p.fundingWallets t.wallet).getD 0))⟩ := by
          rw [hpools]
          exact alGet_alSet_self _ _ _
        refine ⟨?_, ?_, ?_⟩
        · intro _
          simp [poolTotalSol, hget, le_max_left]
        · intro hpos hle
          rw [hcval] at hle
          rw [htotval] at hle
          have hmax : max 0 (p.totalSol -
              min t.sol ((alGet p.fundingWallets t.wallet).getD 0)) =
              p.totalSol - min t.sol ((alGet p.fundingWallets t.wallet).getD 0) := by
            rw [max_eq_right]
            linarith
          refine ⟨?_, ?_, ?_⟩
          · rw [hcval, htotval]
            simp only [poolTotalSol, hget]
            simpa using hmax
          · rw [hcval]
            simp only [walletContribution]
            rw [hget]
            simp [alGet_alSet_self]
          · intro hmin
            rw [hcval] at hmin
            exact absurd (by linarith : (alGet p.fundingWallets t.wallet).getD 0 -
              min t.sol ((alGet p.fundingWallets t.wallet).getD 0) ≤ 0) hz
        · intro hneg
          rw [hcval] at hneg
          exact absurd hc hneg
    · -- no (positive) contribution: nothing changes.
      have hpools : (processTransactionQ w t).teamPools =
          alSet w.teamPools t.teamId p := by
        unfold processTransactionQ
        rw [hpool, hsell]
        simp only [Option.getD_some]
        simp [hc]
      have hget : alGet (processTransactionQ w t).teamPools t.teamId = some p := by
        rw [hpools]
        exact alGet_alSet_self _ _ _
      refine ⟨?_, ?_, ?_⟩
      · intro h0
        rw [htotval] at h0
        simpa [poolTotalSol, hget] using h0
      · intro hpos
        rw [hcval] at hpos
        exact absurd hpos hc
      · intro _
        constructor
        · rw [htotval]
          simp only [poolTotalSol]
          rw [hget]
          simp
        · intro wal
          simp only [walletContribution]
          rw [hget, hpool]

/-- C9 witness: the clamped-removal clause applied to `worldC9`:
2 SOL leave the pool (5 → 3) and the wallet's contribution drops
3 → 1. -/
theorem claim_C9_witness :
    txC9.isSell = true ∧
    (0 : ℚ) < walletContribution worldC9 "4" "w1" ∧
    poolTotalSol (processTransactionQ worldC9 txC9) "4" = 3 ∧
    walletContribution (processTransactionQ worldC9 txC9) "4" "w1" = 1 := by
  have h := (claim_C9 worldC9 txC9 rfl (by intro p hp; fin_cases hp; simp)).2.1
    (by with_unfolding_all decide) (by with_unfolding_all decide)
  refine ⟨rfl, by with_unfolding_all decide, ?_, ?_⟩
  · show poolTotalSol (processTransactionQ worldC9 txC9) txC9.teamId = 3
    rw [h.1]
    with_unfolding_all decide
  · show walletContribution (processTransactionQ worldC9 txC9) txC9.teamId txC9.wallet = 1
    rw [h.2.1]
    with_unfolding_all decide

/-- C1: for every world satisfying the structural facts the JS data
model guarantees (unique team keys, nonnegative banana heal amounts and
reserve counters), after the tick's population reconciliation every
team's `alive` counter equals the exact number of live agents (hp > 0)
on that team, and the same equality still holds in the world returned
by `stepWorld` — i.e. after reserve promotion, banana collection and
banana top-up. -/
theorem claim_C1 (w : World) (dt now : ℚ) (cfg : GameConfig) (fe : Bool)
    (stepR : ℕ → StepRand) (resR : ℕ → SpawnRand) (banR : BanRand)
    (hwf : WFWorld w) :
    (∀ t s', alGet (stepWorldReconciled w dt now cfg fe stepR).teamStats t = some s' →
      s'.alive = countLiveTeam (stepWorldReconciled w dt now cfg fe stepR).monkeys t) ∧
    (∀ t s', alGet (stepWorldQ w dt now cfg fe stepR resR banR).teamStats t = some s' →
      s'.alive = countLiveTeam (stepWorldQ w dt now cfg fe stepR resR banR).monkeys t) := by
  obtain ⟨hnd, hban, hres⟩ := hwf
  have hrec := stepWorldReconciled_spec w dt now cfg fe stepR
  have haliveL : ∀ m ∈ stepAliveList w dt now cfg fe stepR, 0 < m.hp := by
    intro m hm
    unfold stepAliveList at hm
    simpa using (List.mem_filter.mp hm).2
  have hpart1 : ∀ t s',
      alGet (stepWorldReconciled w dt now cfg fe stepR).teamStats t = some s' →
      s'.alive = countLiveTeam (stepWorldReconciled w dt now cfg fe stepR).monkeys t := by
    intro t s' hs'
    have h1 := (hrec.2.2.2.2 t s' hs').1
    rw [hrec.2.2.1, countTeam_filter_live _ t haliveL]
    exact h1
  refine ⟨hpart1, ?_⟩
  have hw1mon : ∀ m ∈ (stepWorldReconciled w dt now cfg fe stepR).monkeys, 0 < m.hp := by
    intro m hm
    rw [hrec.2.2.1] at hm
    exact haliveL m hm
  have hw1keys : ((stepWorldReconciled w dt now cfg fe stepR).teamStats.map Prod.fst).Nodup := by
    rw [hrec.2.2.2.1]
    exact hnd
  have hw1res : ∀ e ∈ (stepWorldReconciled w dt now cfg fe stepR).teamStats,
      0 ≤ e.2.reserves := by
    intro e he
    have hget := alGet_of_mem _ e hw1keys he
    obtain ⟨s, hsget, _, hsres, _, _⟩ := (hrec.2.2.2.2 e.1 e.2 hget).2
    rw [hsres]
    exact hres (e.1, s) (alGet_mem _ _ _ hsget)
  have hw1ban : ∀ b ∈ (stepWorldReconciled w dt now cfg fe stepR).bananas,
      0 ≤ b.healAmount := by
    intro b hb
    rw [hrec.2.1] at hb
    exact hban b hb
  have hw1cnt : ∀ t s', alGet (stepWorldReconciled w dt now cfg fe stepR).teamStats t = some s' →
      s'.alive = (countTeam (stepWorldReconciled w dt now cfg fe stepR).monkeys t : ℤ) := by
    intro t s' hs'
    have h1 := (hrec.2.2.2.2 t s' hs').1
    rw [hrec.2.2.1]
    exact h1
  obtain ⟨ms, hmons, hpools, hbans, hkeys2, hmsfacts, hlen, hstats⟩ :=
    spawnFromReservesQ_spec (stepWorldReconciled w dt now cfg fe stepR) cfg resR hw1keys hw1res
  have hSmon : ∀ m ∈ (spawnFromReservesQ (stepWorldReconciled w dt now cfg fe stepR) cfg resR).monkeys,
      0 < m.hp := by
    intro m hm
    rw [hmons] at hm
    rcases List.mem_append.mp hm with h1 | h1
    · exact hw1mon m h1
    · exact (hmsfacts m h1).1
  have hSban : ∀ b ∈ (spawnFromReservesQ (stepWorldReconciled w dt now cfg fe stepR) cfg resR).bananas,
      0 ≤ b.healAmount := by
    intro b hb
    rw [hbans] at hb
    exact hw1ban b hb
  have hScnt : ∀ t s',
      alGet (spawnFromReservesQ (stepWorldReconciled w dt now cfg fe stepR) cfg resR).teamStats t = some s' →
      s'.alive = (countTeam (spawnFromReservesQ (stepWorldReconciled w dt now cfg fe stepR) cfg resR).monkeys t : ℤ) := by
    intro t s' hs'
    obtain ⟨s, hsget, _, _, halive, _, _⟩ := hstats t s' hs'
    rw [hmons, countTeam_append, halive, hw1cnt t s hsget]
    push_cast
    ring
  rw [stepWorldQ_eq]
  by_cases hd : 0 < (stepDeadList w dt now cfg fe stepR).length
  · rw [if_pos hd]
    exact tick_tail_alive _ cfg banR hSmon hSban hScnt
  · rw [if_neg hd]
    exact tick_tail_alive _ cfg banR hw1mon hw1ban hw1cnt

theorem claim_C1_witness :
    WFWorld worldC6 ∧
    ((∀ t s', alGet (stepWorldReconciled worldC6 0 0 cfgC6 false zeroStepR).teamStats t = some s' →
      s'.alive = countLiveTeam (stepWorldReconciled worldC6 0 0 cfgC6 false zeroStepR).monkeys t) ∧
    (∀ t s', alGet (stepWorldQ worldC6 0 0 cfgC6 false zeroStepR zeroSpawnR zeroBanR).teamStats t = some s' →
      s'.alive = countLiveTeam (stepWorldQ worldC6 0 0 cfgC6 false zeroStepR zeroSpawnR zeroBanR).monkeys t)) :=
  ⟨by unfold WFWorld; with_unfolding_all decide,
   claim_C1 worldC6 0 0 cfgC6 false zeroStepR zeroSpawnR zeroBanR
     (by unfold WFWorld; with_unfolding_all decide)⟩


/-- C10: for every world of live, undamaged-consistent agents
(0 < hp ≤ maxHp) and nonnegative banana heal amounts, a tick with
`fightingEnabled = false` never decreases any agent's hp (each input
agent survives at the same index with hp at least its old value), keeps
every team's `dead`, `kills`, `spawned` and `reserves` counters
unchanged, clears every agent's `targetId` in the returned world, and
keeps the agent count unchanged. -/
theorem claim_C10 (w : World) (dt now : ℚ) (cfg : GameConfig)
    (stepR : ℕ → StepRand) (resR : ℕ → SpawnRand) (banR : BanRand)
    (hban : ∀ b ∈ w.bananas, 0 ≤ b.healAmount)
    (hlive : ∀ m ∈ w.monkeys, 0 < m.hp ∧ m.hp ≤ m.maxHp) :
    (∀ i m, w.monkeys.get? i = some m →
      ∃ m', (stepWorldQ w dt now cfg false stepR resR banR).monkeys.get? i = some m' ∧
        m.hp ≤ m'.hp ∧ m'.targetId = none) ∧
    (∀ t s', alGet (stepWorldQ w dt now cfg false stepR resR banR).teamStats t = some s' →
      ∃ s, alGet w.teamStats t = some s ∧ s'.dead = s.dead ∧ s'.kills = s.kills ∧
        s'.spawned = s.spawned ∧ s'.reserves = s.reserves) ∧
    ((stepWorldQ w dt now cfg false stepR resR banR).monkeys.length = w.monkeys.length) := by
  have hlive1 : ∀ m ∈ w.monkeys, 0 < m.hp := fun m hm => (hlive m hm).1
  have hdead := stepDeadList_false_nil w dt now cfg stepR hlive1
  have halive := stepAliveList_false w dt now cfg stepR hlive1
  have hnd : ¬ 0 < (stepDeadList w dt now cfg false stepR).length := by
    rw [hdead]
    simp
  have hw' : stepWorldQ w dt now cfg false stepR resR banR =
      manageBananasQ (collectBananasQ (stepWorldReconciled w dt now cfg false stepR))
        cfg banR := by
    rw [stepWorldQ_eq, if_neg hnd]
  have hrec := stepWorldReconciled_spec w dt now cfg false stepR
  have hw1mon : (stepWorldReconciled w dt now cfg false stepR).monkeys =
      stepDamagePhase w dt now cfg false stepR := by
    rw [hrec.2.2.1, halive]
  have hw1stats : (stepWorldReconciled w dt now cfg false stepR).teamStats =
      w.teamStats.map (fun p => (p.1,
        { p.2 with alive := ((fun k =>
            (countTeam (stepAliveList w dt now cfg false stepR) k : ℤ)) p.1) })) := by
    show (((stepDeadList w dt now cfg false stepR).foldl deadFoldStep w.teamStats).map _) = _
    rw [hdead]
    rfl
  have hfmon : (stepWorldQ w dt now cfg false stepR resR banR).monkeys =
      (collectGo (stepDamagePhase w dt now cfg false stepR) w.bananas).1 := by
    rw [hw', manageBananasQ_monkeys]
    show (collectGo (stepWorldReconciled w dt now cfg false stepR).monkeys
      (stepWorldReconciled w dt now cfg false stepR).bananas).1 = _
    rw [hw1mon, hrec.2.1]
  have hfstats : (stepWorldQ w dt now cfg false stepR resR banR).teamStats =
      (stepWorldReconciled w dt now cfg false stepR).teamStats := by
    rw [hw', manageBananasQ_teamStats]
    rfl
  have hmsall : ∀ x ∈ stepDamagePhase w dt now cfg false stepR,
      0 < x.hp ∧ x.hp ≤ x.maxHp := by
    intro x hx
    rcases List.mem_iff_get?.mp hx with ⟨j, hj⟩
    cases hmj : w.monkeys.get? j with
    | none => rw [stepDamagePhase_false_get, hmj] at hj; simp at hj
    | some m0 =>
      have hp := stepDamagePhase_false_props w dt now cfg stepR j m0 x hmj hj
      rw [hp.1, hp.2.1]
      exact hlive m0 (List.get?_mem hmj)
  refine ⟨?_, ?_, ?_⟩
  · intro i m hm
    have hphase := stepDamagePhase_false_get w dt now cfg stepR i
    rw [hm, Option.map_some'] at hphase
    have hprops := stepDamagePhase_false_props w dt now cfg stepR i m _ hm hphase
    have hcg := collectGo_get (stepDamagePhase w dt now cfg false stepR) w.bananas i
    have hsome : ((collectGo (stepDamagePhase w dt now cfg false stepR) w.bananas).1.get? i).isSome = true := by
      rw [hcg.1, hphase]
      rfl
    obtain ⟨m', hm'⟩ := Option.isSome_iff_exists.mp hsome
    have hmono := collectGo_hp_mono (stepDamagePhase w dt now cfg false stepR) w.bananas
      hban hmsall i _ m' hphase hm'
    have htid := (hcg.2 _ m' hphase hm').2.1
    refine ⟨m', by rw [hfmon]; exact hm', ?_, ?_⟩
    · rw [hprops.1] at hmono
      exact hmono
    · rw [htid, hprops.2.2.2]
  · intro t s' hs'
    rw [hfstats, hw1stats] at hs'
    have hov := alGet_alive_overwrite
      (fun k => (countTeam (stepAliveList w dt now cfg false stepR) k : ℤ)) t w.teamStats
    rw [hov] at hs'
    cases hg : alGet w.teamStats t with
    | none => rw [hg] at hs'; simp at hs'
    | some s =>
      rw [hg, Option.map_some'] at hs'
      have h2 := Option.some.inj hs'
      refine ⟨s, rfl, ?_, ?_, ?_, ?_⟩ <;> rw [← h2]
  · rw [hfmon, collectGo_length, stepDamagePhase_length]

theorem claim_C10_witness :
    (∀ b ∈ worldC6.bananas, 0 ≤ b.healAmount) ∧
    (∀ m ∈ worldC6.monkeys, 0 < m.hp ∧ m.hp ≤ m.maxHp) ∧
    ((∀ i m, worldC6.monkeys.get? i = some m →
      ∃ m', (stepWorldQ worldC6 0 0 cfgC6 false zeroStepR zeroSpawnR zeroBanR).monkeys.get? i = some m' ∧
        m.hp ≤ m'.hp ∧ m'.targetId = none) ∧
    (∀ t s', alGet (stepWorldQ worldC6 0 0 cfgC6 false zeroStepR zeroSpawnR zeroBanR).teamStats t = some s' →
      ∃ s, alGet worldC6.teamStats t = some s ∧ s'.dead = s.dead ∧ s'.kills = s.kills ∧
        s'.spawned = s.spawned ∧ s'.reserves = s.reserves) ∧
    ((stepWorldQ worldC6 0 0 cfgC6 false zeroStepR zeroSpawnR zeroBanR).monkeys.length = worldC6.monkeys.length)) :=
  ⟨by with_unfolding_all decide, by with_unfolding_all decide,
   claim_C10 worldC6 0 0 cfgC6 zeroStepR zeroSpawnR zeroBanR
     (by with_unfolding_all decide) (by with_unfolding_all decide)⟩

/-- C5: an agent's hp stays within [0, maxHp] under every sequence of
the engine's hp operations — damage applications `max(0, hp - d)` and
banana heals `min(maxHp, hp + h)` with nonnegative amounts — and in every
tick of a structurally well-formed world, every agent of the returned
world has hp > 0: an agent whose hp reaches 0 or below during the tick
is removed from the live collection before stepWorld returns. -/
theorem claim_C5 (maxHp hp : ℚ) (ops : List HpOp)
    (w : World) (dt now : ℚ) (cfg : GameConfig) (fe : Bool)
    (stepR : ℕ → StepRand) (resR : ℕ → SpawnRand) (banR : BanRand)
    (h0 : 0 ≤ hp) (h1 : hp ≤ maxHp) (hops : ∀ op ∈ ops, 0 ≤ hpOpAmount op)
    (hwf : WFWorld w) :
    (0 ≤ ops.foldl (applyHpOp maxHp) hp ∧ ops.foldl (applyHpOp maxHp) hp ≤ maxHp) ∧
    (∀ m' ∈ (stepWorldQ w dt now cfg fe stepR resR banR).monkeys, 0 < m'.hp) :=
  ⟨hpOps_fold_bounds maxHp ops hp h0 h1 hops,
   stepWorldQ_monkeys_pos w dt now cfg fe stepR resR banR hwf⟩

theorem claim_C5_witness :
    ((0 : ℚ) ≤ 50 ∧ (50 : ℚ) ≤ 100 ∧
      (∀ op ∈ [HpOp.damage 12, HpOp.heal 10], 0 ≤ hpOpAmount op) ∧ WFWorld worldC6) ∧
    ((0 ≤ [HpOp.damage 12, HpOp.heal 10].foldl (applyHpOp 100) 50 ∧
      [HpOp.damage 12, HpOp.heal 10].foldl (applyHpOp 100) 50 ≤ 100) ∧
     (∀ m' ∈ (stepWorldQ worldC6 0 0 cfgC6 true zeroStepR zeroSpawnR zeroBanR).monkeys,
       0 < m'.hp)) :=
  ⟨⟨by norm_num, by norm_num, by with_unfolding_all decide,
    by unfold WFWorld; with_unfolding_all decide⟩,
   claim_C5 100 50 [HpOp.damage 12, HpOp.heal 10] worldC6 0 0 cfgC6 true
     zeroStepR zeroSpawnR zeroBanR (by norm_num) (by norm_num)
     (by with_unfolding_all decide) (by unfold WFWorld; with_unfolding_all decide)⟩

/-- C4: starting from the empty world, after any interleaving of spawn
requests, pool sweeps, funding transactions and ticks (with a
nonnegative configured maximum), the live agent list never exceeds
`maxMonkeys`, every team satisfies `spawned = alive + dead + reserves`,
and a further positive spawn request on the reached world adds exactly
its overflow — the requested count minus the number actually spawned,
`min(count, max(0, maxMonkeys - current))` — to the requesting team's
`reserves` counter. -/
theorem claim_C4 (cfg : GameConfig) (ops : List EngineOp)
    (hM : (0 : ℤ) ≤ cfg.maxMonkeys) :
    (((runOps cfg ops).monkeys.length : ℤ) ≤ cfg.maxMonkeys) ∧
    (∀ e ∈ (runOps cfg ops).teamStats,
      e.2.spawned = e.2.alive + e.2.dead + e.2.reserves) ∧
    (∀ (count : ℤ) (tid : String) (mt : MonkeyType) (atPos : Option Vector2)
       (r : SpawnRand) (s : TeamStats), 0 < count →
      alGet (runOps cfg ops).teamStats tid = some s →
      ∃ s', alGet (spawnMonkeysQ (runOps cfg ops) count tid mt atPos cfg r).teamStats tid =
          some s' ∧
        s'.spawned = s.spawned + count ∧
        s'.reserves = s.reserves + (count -
          min count (max 0 (cfg.maxMonkeys - ((runOps cfg ops).monkeys.length : ℤ))))) := by
  obtain ⟨I1, I2, I3, I4, I5, I6⟩ := runOps_inv cfg hM ops
  refine ⟨I1, I4, ?_⟩
  intro count tid mt atPos r s hc halg
  exact ⟨_, spawnMonkeysQ_overflow (runOps cfg ops) count tid mt atPos cfg r hc s halg,
    rfl, rfl⟩

theorem claim_C4_witness :
    ((0 : ℤ) ≤ cfgC6.maxMonkeys) ∧
    ((((runOps cfgC6 [EngineOp.spawn 15 "3" MonkeyType.small none (zeroSpawnR 0)]).monkeys.length : ℤ) ≤ cfgC6.maxMonkeys) ∧
    (∀ e ∈ (runOps cfgC6 [EngineOp.spawn 15 "3" MonkeyType.small none (zeroSpawnR 0)]).teamStats,
      e.2.spawned = e.2.alive + e.2.dead + e.2.reserves) ∧
    (∀ (count : ℤ) (tid : String) (mt : MonkeyType) (atPos : Option Vector2)
       (r : SpawnRand) (s : TeamStats), 0 < count →
      alGet (runOps cfgC6 [EngineOp.spawn 15 "3" MonkeyType.small none (zeroSpawnR 0)]).teamStats tid = some s →
      ∃ s', alGet (spawnMonkeysQ (runOps cfgC6 [EngineOp.spawn 15 "3" MonkeyType.small none (zeroSpawnR 0)]) count tid mt atPos cfgC6 r).teamStats tid =
          some s' ∧
        s'.spawned = s.spawned + count ∧
        s'.reserves = s.reserves + (count -
          min count (max 0 (cfgC6.maxMonkeys - ((runOps cfgC6 [EngineOp.spawn 15 "3" MonkeyType.small none (zeroSpawnR 0)]).monkeys.length : ℤ)))))) :=
  ⟨by with_unfolding_all decide,
   claim_C4 cfgC6 [EngineOp.spawn 15 "3" MonkeyType.small none (zeroSpawnR 0)]
     (by with_unfolding_all decide)⟩
